import Mathlib

set_option autoImplicit false
set_option maxRecDepth 8000

/-!
Verification of the picori GameCube/Wii parsing library against its
specification.  The Rust sources are shallowly embedded: byte streams become
`ByteStream` (a byte list plus a cursor position), fallible operations return
`Except`/`RunResult`, machine integers become `Nat` with explicit `% 2 ^ 32`
where 32-bit overflow matters, and Rust panics (out-of-bounds indexing) are
modelled by the dedicated `RunResult.panicked` constructor.
-/

/-- Kind of a `std::io` error observed by the substrate.  `unexpectedEof` is
the error a cursor's `read_exact` returns on a short read; `other` stands for
any other I/O failure of an underlying stream. -/
inductive IoErrorKind where
  | unexpectedEof
  | other
deriving DecidableEq

/-- The `ParseProblem` error enum (src/helper/error/parse.rs), with source-code
locations dropped. -/
inductive ParseProblem where
  | invalidMagic (msg : String)
  | invalidRange (msg : String)
  | invalidHeader (msg : String)
  | invalidData (msg : String)
  | unsupportedVersion (v : Nat)
deriving DecidableEq

/-- The `DecompressionProblem` error enum (src/helper/error/mod.rs). -/
inductive DecompressionProblem where
  | invalidHeader (msg : String)
  | invalidData (msg : String)
  | unexpectedEndOfData
  | invalidDecompressedSize
deriving DecidableEq

/-- The `DecodingProblem` error enum (src/helper/error/mod.rs). -/
inductive DecodingProblem where
  | invalidCodePoint (v : Nat)
  | invalidByte (b : Nat)
  | unexpectedEndOfData
deriving DecidableEq

/-- The crate-wide `Error` enum: parse/decompression/decoding problems plus the
I/O classifications produced by the reader and seeker helpers
(`Error::ReadFailed` carries the requested byte count). -/
inductive Error where
  | parse (p : ParseProblem)
  | decompression (p : DecompressionProblem)
  | decoding (p : DecodingProblem)
  | readFailed (len : Nat) (k : IoErrorKind)
  | seekFailed (k : IoErrorKind)
  | integerOverflow
  | dolInvalidHeaderSize (size : Nat)
  | dolTextSectionOutOfBounds (sectionIdx : Nat)
  | dolDataSectionOutOfBounds (sectionIdx : Nat)
deriving DecidableEq

/-- Whether an error is one of the `UnexpectedEndOfData` variants of the error
taxonomy (the decompression and decoding enums are the only ones that have
such a variant). -/
def Error.isUnexpectedEndOfData : Error → Bool
  | .decompression .unexpectedEndOfData => true
  | .decoding .unexpectedEndOfData => true
  | _ => false

/-- Result of running embedded Rust code that may return normally, return a
typed error, or panic (e.g. on an out-of-bounds slice index). -/
inductive RunResult (α : Type) where
  | ok (val : α)
  | err (e : Error)
  | panicked
deriving DecidableEq

/-- Forget the error/panic distinction of a `RunResult`. -/
def RunResult.toOption {α : Type} : RunResult α → Option α
  | .ok v => some v
  | _ => none

/-- Lift an `Except` computation into `RunResult`. -/
def RunResult.ofExcept {α : Type} : Except Error α → RunResult α
  | .ok v => .ok v
  | .error e => .err e

/-- A seekable in-memory byte source: the model of `std::io::Cursor` over a
byte buffer.  `pos` may point past the end of `data`. -/
structure ByteStream where
  data : List Nat
  pos : Nat
deriving DecidableEq

/-- The model of `std::io::SeekFrom`. -/
inductive SeekFrom where
  | start (n : Nat)
  | current (ofs : Int)
  | fromEnd (ofs : Int)
deriving DecidableEq

/-- Model of `read_exact` on a cursor: succeed returning exactly `n` bytes
when they are available, otherwise fail with `UnexpectedEof`. -/
def ByteStream.readExact (s : ByteStream) (n : Nat) :
    Except IoErrorKind (List Nat × ByteStream) :=
  if s.pos + n ≤ s.data.length then
    .ok ((s.data.drop s.pos).take n, ⟨s.data, s.pos + n⟩)
  else
    .error .unexpectedEof

/-- Model of `std::io::Read::read` on a cursor: return the available prefix of
the requested count (possibly shorter, never an error). -/
def ByteStream.readStd (s : ByteStream) (n : Nat) : List Nat × ByteStream :=
  let bs := (s.data.drop s.pos).take n
  (bs, ⟨s.data, s.pos + bs.length⟩)

/-- Model of `std::io::Seek::seek` on a cursor: absolute positions may exceed
the length of the data; negative effective positions are an I/O error. -/
def ByteStream.seekStd (s : ByteStream) : SeekFrom → Except IoErrorKind (Nat × ByteStream)
  | .start n => .ok (n, ⟨s.data, n⟩)
  | .current d =>
    let a : Int := (s.pos : Int) + d
    if a < 0 then .error .other else .ok (a.toNat, ⟨s.data, a.toNat⟩)
  | .fromEnd d =>
    let a : Int := (s.data.length : Int) + d
    if a < 0 then .error .other else .ok (a.toNat, ⟨s.data, a.toNat⟩)

/-- `Reader::read_into_tracked` (src/helper/reader.rs): every failure of the
underlying `read_exact` — short reads included — is wrapped as
`Error::ReadFailed` carrying the requested byte count. -/
def readIntoTracked (r : Except IoErrorKind (List Nat × ByteStream)) (n : Nat) :
    Except Error (List Nat × ByteStream) :=
  match r with
  | .ok x => .ok x
  | .error k => .error (.readFailed n k)

/-- `Reader::read_into` on a byte stream. -/
def ByteStream.readInto (s : ByteStream) (n : Nat) : Except Error (List Nat × ByteStream) :=
  readIntoTracked (s.readExact n) n

/-- `Reader::read_as_vec`: allocate a buffer of length `size` and fill it. -/
def ByteStream.readAsVec (s : ByteStream) (size : Nat) :
    Except Error (List Nat × ByteStream) :=
  s.readInto size

/-- `Seeker::goto`: absolute seek; never fails on an in-memory stream. -/
def ByteStream.goto (s : ByteStream) (p : Nat) : ByteStream := ⟨s.data, p⟩

/-- Big-endian value of a byte list (most significant byte first). -/
def beVal (bs : List Nat) : Nat := bs.foldl (fun a b => a * 256 + b) 0

/-- `Parser::u8`: read one byte. -/
def ByteStream.u8 (s : ByteStream) : Except Error (Nat × ByteStream) := do
  let (bs, s') ← s.readInto 1
  .ok (bs.headD 0, s')

/-- `Parser::bu16`: read a big-endian 16-bit value. -/
def ByteStream.bu16 (s : ByteStream) : Except Error (Nat × ByteStream) := do
  let (bs, s') ← s.readInto 2
  .ok (beVal bs, s')

/-- `Parser::bu32`: read a big-endian 32-bit value. -/
def ByteStream.bu32 (s : ByteStream) : Except Error (Nat × ByteStream) := do
  let (bs, s') ← s.readInto 4
  .ok (beVal bs, s')

/-- `Parser::u8_array::<L>`: one bulk read of `L` bytes
(via `read_buffer_of_tracked`). -/
def ByteStream.u8Array (s : ByteStream) (len : Nat) : Except Error (List Nat × ByteStream) :=
  s.readInto len

/-- Split a byte list into big-endian 32-bit words (4 bytes each). -/
def beWords : List Nat → List Nat
  | b0 :: b1 :: b2 :: b3 :: rest => beVal [b0, b1, b2, b3] :: beWords rest
  | _ => []

/-- `Parser::bu32_array::<L>`: one bulk read of `4 * L` bytes followed by
per-element endian conversion. -/
def ByteStream.bu32Array (s : ByteStream) (len : Nat) :
    Except Error (List Nat × ByteStream) := do
  let (bs, s') ← s.readInto (4 * len)
  .ok (beWords bs, s')

/-- `Ascii::first` / `Ascii::parse_str`: decode bytes as ASCII characters up
to (excluding) the first NUL; a byte with the eighth bit set is an
`InvalidByte` decoding error. -/
def asciiFirst : List Nat → Except Error String
  | [] => .ok ""
  | b :: rest =>
    if b = 0 then .ok ""
    else if b ≤ 0x7F then do
      let tail ← asciiFirst rest
      .ok (String.mk (Char.ofNat b :: tail.data))
    else .error (.decoding (.invalidByte b))

/-- `Parser::str_fixed::<L, Ascii>`: read exactly `L` bytes and ASCII-decode
them up to the first NUL. -/
def ByteStream.strFixedAscii (s : ByteStream) (len : Nat) :
    Except Error (String × ByteStream) := do
  let (bs, s') ← s.readInto len
  let str ← asciiFirst bs
  .ok (str, s')

/-! ## Yaz0 decompression (src/yaz0.rs) -/

/-- The Yaz0 header (`yaz0::Header`): magic, decompressed size and two
reserved words, all read as big-endian 32-bit values. -/
structure Yaz0Header where
  magic : Nat
  decompressedSize : Nat
  reserved0 : Nat
  reserved1 : Nat
deriving DecidableEq

/-- `Header::from_binary`: four consecutive big-endian 32-bit reads. -/
def yaz0HeaderFromBinary (s : ByteStream) : Except Error (Yaz0Header × ByteStream) := do
  let (m, s) ← s.bu32
  let (d, s) ← s.bu32
  let (r0, s) ← s.bu32
  let (r1, s) ← s.bu32
  .ok (⟨m, d, r0, r1⟩, s)

/-- `Header::is_valid`: the magic must be `Yaz0` (0x59617A30). -/
def yaz0HeaderIsValid (h : Yaz0Header) : Bool := h.magic == 0x59617A30

/-- The back-reference copy loop of `decompress_into` (src/yaz0.rs lines
239-242): `destination[dest] = destination[base + n]; dest += 1;` repeated
`length` times.  Indexing past the end of `destination` is a Rust panic. -/
def yaz0Copy (destination : List Nat) (dest base : Nat) :
    Nat → RunResult (List Nat × Nat)
  | 0 => .ok (destination, dest)
  | n + 1 =>
    match destination.get? base with
    | none => .panicked
    | some v =>
      if dest < destination.length then
        yaz0Copy (destination.set dest v) (dest + 1) (base + 1) n
      else
        .panicked

theorem yaz0Copy_ok {destination d' : List Nat} {dest base dest' : Nat} {n : Nat}
    (h : yaz0Copy destination dest base n = .ok (d', dest')) :
    dest' = dest + n ∧ d'.length = destination.length := by
  induction n generalizing destination dest base with
  | zero =>
    simp only [yaz0Copy] at h
    cases h
    exact ⟨rfl, rfl⟩
  | succ n ih =>
    simp only [yaz0Copy] at h
    split at h
    · cases h
    · split at h
      · obtain ⟨h1, h2⟩ := ih h
        exact ⟨by omega, by simpa using h2⟩
      · cases h

/-- One iteration outcome of the `decompress_into` loop: either the loop
finishes (normally, with a typed error, or with a panic), or it continues
with an updated state. -/
inductive Yaz0StepOut where
  | done (r : RunResult (List Nat × ByteStream))
  | cont (input : ByteStream) (destination : List Nat) (dest code codeBits : Nat)
deriving DecidableEq

/-- One iteration of the `decompress_into` loop body (src/yaz0.rs lines
216-247).  The code-byte refresh (`code_bits == 0`) is inlined at the head of
the iteration; `code <<= 1` is 32-bit arithmetic. -/
def yaz0LoopStep (input : ByteStream) (destination : List Nat)
    (dest code codeBits : Nat) : Yaz0StepOut :=
  if dest < destination.length then
    match (if codeBits = 0 then
            (input.u8).map (fun p => (p.1, p.2, 8))
          else
            .ok (code, input, codeBits) :
          Except Error (Nat × ByteStream × Nat)) with
    | .error e => .done (.err e)
    | .ok (code, input, codeBits) =>
      if code &&& 0x80 ≠ 0 then
        match input.u8 with
        | .error e => .done (.err e)
        | .ok (byte, input') =>
          .cont input' (destination.set dest byte) (dest + 1)
            (code * 2 % 4294967296) (codeBits - 1)
      else
        match input.u8 with
        | .error e => .done (.err e)
        | .ok (b0, input1) =>
          match input1.u8 with
          | .error e => .done (.err e)
          | .ok (b1, input2) =>
            let a := b0 &&& 0xf
            let b := b0 >>> 4
            let offset := (a <<< 8) ||| b1
            match (if b = 0 then
                    (input2.u8).map (fun p => (p.1 + 0x12, p.2))
                  else
                    .ok (b + 2, input2) :
                  Except Error (Nat × ByteStream)) with
            | .error e => .done (.err e)
            | .ok (length, input3) =>
              if offset < dest then
                match yaz0Copy destination dest (dest - (offset + 1)) length with
                | .ok (d', dest') =>
                  .cont input3 d' dest' (code * 2 % 4294967296) (codeBits - 1)
                | .err e => .done (.err e)
                | .panicked => .done .panicked
              else
                .done (.err (.decompression .unexpectedEndOfData))
  else
    .done (.ok (destination, input))

/-- Helper: a mapped `Except` value is `ok` only if the original was. -/
theorem exceptMapOk {α β ε : Type} {f : α → β} {x : Except ε α} {y : β}
    (h : Except.map f x = .ok y) : ∃ a, x = .ok a ∧ y = f a := by
  cases x with
  | error e => simp [Except.map] at h
  | ok a =>
    simp only [Except.map, Except.ok.injEq] at h
    exact ⟨a, rfl, h.symm⟩

/-- Every continuation of the loop strictly increases the output index `dest`
and preserves the destination length (and only occurs while
`dest < destination.length`), so `destination.length - dest` is a strictly
decreasing measure of the loop. -/
theorem yaz0LoopStep_cont {input : ByteStream} {destination : List Nat}
    {dest code codeBits : Nat} {input' : ByteStream} {destination' : List Nat}
    {dest' code' codeBits' : Nat}
    (h : yaz0LoopStep input destination dest code codeBits =
      .cont input' destination' dest' code' codeBits') :
    destination'.length = destination.length ∧ dest < dest' ∧
      dest < destination.length := by
  unfold yaz0LoopStep at h
  split at h
  case isFalse => cases h
  case isTrue hd =>
  split at h
  · cases h
  · split at h
    · split at h
      · cases h
      · cases h
        exact ⟨by simp, by omega, hd⟩
    · split at h
      · cases h
      · split at h
        · cases h
        · dsimp only at h
          split at h
          · cases h
          · rename_i x3 len3 inp4 hlr
            split at h
            · split at h
              · rename_i hscr d2 dst2 hcp
                cases h
                obtain ⟨h1, h2⟩ := yaz0Copy_ok hcp
                have hlen : 1 ≤ len3 := by
                  split at hlr
                  · obtain ⟨p, hp, hy⟩ := exceptMapOk hlr
                    simp only [Prod.mk.injEq] at hy
                    omega
                  · simp only [Except.ok.injEq, Prod.mk.injEq] at hlr
                    omega
                exact ⟨h2, by omega, hd⟩
              · cases h
              · cases h
            · cases h

/-- The `decompress_into` loop, iterated on explicit fuel.  By
`yaz0LoopStep_cont` the loop runs at most `destination.length - dest` further
iterations, so any fuel exceeding that bound gives the exact loop semantics
(`yaz0Go_fuel_irrelevant`); the zero-fuel fallback is unreachable from
`yaz0DecompressInto`. -/
def yaz0Go : Nat → ByteStream → List Nat → Nat → Nat → Nat →
    RunResult (List Nat × ByteStream)
  | 0, _, _, _, _, _ => .panicked
  | fuel + 1, input, destination, dest, code, codeBits =>
    match yaz0LoopStep input destination dest code codeBits with
    | .done r => r
    | .cont input' destination' dest' code' codeBits' =>
      yaz0Go fuel input' destination' dest' code' codeBits'

/-- Any two fuels strictly above the measure `destination.length - dest` give
the same result: the fuel is an artifact of the embedding, not of the
semantics. -/
theorem yaz0Go_fuel_irrelevant (f1 : Nat) : ∀ (f2 : Nat) (input : ByteStream)
    (destination : List Nat) (dest code codeBits : Nat),
    destination.length - dest < f1 → destination.length - dest < f2 →
    yaz0Go f1 input destination dest code codeBits =
      yaz0Go f2 input destination dest code codeBits := by
  induction f1 with
  | zero => intro f2 input destination dest code codeBits h1 h2; omega
  | succ f1 ih =>
    intro f2 input destination dest code codeBits h1 h2
    cases f2 with
    | zero => omega
    | succ f2 =>
      simp only [yaz0Go]
      cases hstep : yaz0LoopStep input destination dest code codeBits with
      | done r => rfl
      | cont input' destination' dest' code' codeBits' =>
        obtain ⟨hl, hlt, hdlt⟩ := yaz0LoopStep_cont hstep
        exact ih f2 input' destination' dest' code' codeBits' (by omega) (by omega)

/-- `decompress_into`: run the loop from a fresh state over the
caller-provided destination buffer. -/
def yaz0DecompressInto (input : ByteStream) (destination : List Nat) :
    RunResult (List Nat × ByteStream) :=
  yaz0Go (destination.length + 1) input destination 0 0 0

/-- `decompress`: allocate a zeroed buffer of `decompressedSize` bytes and
fill it with `decompress_into`. -/
def yaz0Decompress (input : ByteStream) (decompressedSize : Nat) :
    RunResult (List Nat × ByteStream) :=
  yaz0DecompressInto input (List.replicate decompressedSize 0)

/-! ## Yaz0Reader (src/yaz0.rs lines 84-183) -/

/-- The `Yaz0Reader` state: the underlying stream, the eagerly decompressed
contents, a read position into them, and the transparent flag. -/
structure Yaz0Reader where
  reader : ByteStream
  decompressed : List Nat
  position : Nat
  transparent : Bool
deriving DecidableEq

/-- `Yaz0Reader::new`: parse the header; if it parses and its magic is valid,
eagerly decompress and serve from memory; otherwise rewind the stream to the
construction position and become a transparent pass-through. -/
def yaz0ReaderNew (s : ByteStream) : RunResult Yaz0Reader :=
  let base := s.pos
  match yaz0HeaderFromBinary s with
  | .ok (h, s1) =>
    if yaz0HeaderIsValid h then
      match yaz0Decompress s1 h.decompressedSize with
      | .ok (data, s2) => .ok ⟨s2, data, 0, false⟩
      | .err e => .err e
      | .panicked => .panicked
    else
      .ok ⟨s.goto base, [], 0, true⟩
  | .error _ => .ok ⟨s.goto base, [], 0, true⟩

/-- The `header.as_ref().map(|x| x.is_valid()).unwrap_or(false)` test of
`Yaz0Reader::new`. -/
def yaz0HeaderAccepts (s : ByteStream) : Bool :=
  match yaz0HeaderFromBinary s with
  | .ok (h, _) => yaz0HeaderIsValid h
  | .error _ => false

/-- `Read::read` for `Yaz0Reader`: pass-through in transparent mode,
otherwise copy from the decompressed buffer while bytes remain. -/
def Yaz0Reader.read (r : Yaz0Reader) (n : Nat) : List Nat × Yaz0Reader :=
  if r.transparent then
    let (bs, s') := r.reader.readStd n
    (bs, ⟨s', r.decompressed, r.position, r.transparent⟩)
  else
    let bs := (r.decompressed.drop r.position).take n
    (bs, ⟨r.reader, r.decompressed, r.position + bs.length, r.transparent⟩)

/-- `Seek::seek` for `Yaz0Reader`: pass-through in transparent mode,
otherwise compute the requested position (negative positions are an error)
and clamp it to the decompressed length. -/
def Yaz0Reader.seek (r : Yaz0Reader) (sf : SeekFrom) :
    Except IoErrorKind (Nat × Yaz0Reader) :=
  if r.transparent then
    match r.reader.seekStd sf with
    | .ok (p, s') => .ok (p, ⟨s', r.decompressed, r.position, r.transparent⟩)
    | .error k => .error k
  else
    let posE : Except IoErrorKind Nat :=
      match sf with
      | .start n => .ok n
      | .current d =>
        let a : Int := (r.position : Int) + d
        if a < 0 then .error .other else .ok a.toNat
      | .fromEnd d =>
        let a : Int := (r.decompressed.length : Int) + d
        if a < 0 then .error .other else .ok a.toNat
    match posE with
    | .error k => .error k
    | .ok p =>
      let p' := if p > r.decompressed.length then r.decompressed.length else p
      .ok (p', ⟨r.reader, r.decompressed, p', r.transparent⟩)

/-- An observable stream operation: a read of `n` bytes or a seek. -/
inductive StreamOp where
  | read (n : Nat)
  | seek (sf : SeekFrom)

/-- Observable outcome of one stream operation. -/
inductive OpResult where
  | readOk (bs : List Nat)
  | seekOk (p : Nat)
  | seekErr
deriving DecidableEq

/-- Run a list of operations against a raw in-memory stream (the underlying
stream of a transparent reader). -/
def runMem : ByteStream → List StreamOp → List OpResult
  | _, [] => []
  | s, .read n :: ops =>
    let (bs, s') := s.readStd n
    .readOk bs :: runMem s' ops
  | s, .seek sf :: ops =>
    match s.seekStd sf with
    | .ok (p, s') => .seekOk p :: runMem s' ops
    | .error _ => .seekErr :: runMem s ops

/-- Run a list of operations against a `Yaz0Reader`. -/
def runYaz0 : Yaz0Reader → List StreamOp → List OpResult
  | _, [] => []
  | r, .read n :: ops =>
    let (bs, r') := r.read n
    .readOk bs :: runYaz0 r' ops
  | r, .seek sf :: ops =>
    match r.seek sf with
    | .ok (p, r') => .seekOk p :: runYaz0 r' ops
    | .error _ => .seekErr :: runYaz0 r ops

/-- Modelled from the spec: a seekable in-memory byte source over `contents`
(§4.2, §9 "Yaz0 as pass-through").  Reads return the available prefix of the
requested count and advance; seeks resolve Start/Current/End positions, fail
on negative positions, and clamp to the end of the contents.  This is the
reference model the decompressing `Yaz0Reader` is compared against. -/
def runInMemory : List Nat → Nat → List StreamOp → List OpResult
  | _, _, [] => []
  | contents, p, .read n :: ops =>
    let bs := (contents.drop p).take n
    .readOk bs :: runInMemory contents (p + bs.length) ops
  | contents, p, .seek sf :: ops =>
    let posE : Except IoErrorKind Nat :=
      match sf with
      | .start n => .ok n
      | .current d =>
        let a : Int := (p : Int) + d
        if a < 0 then .error .other else .ok a.toNat
      | .fromEnd d =>
        let a : Int := (contents.length : Int) + d
        if a < 0 then .error .other else .ok a.toNat
    match posE with
    | .error _ => .seekErr :: runInMemory contents p ops
    | .ok q =>
      let q' := if q > contents.length then contents.length else q
      .seekOk q' :: runInMemory contents q' ops

theorem runYaz0_transparent (s : ByteStream) (d : List Nat) (p : Nat)
    (ops : List StreamOp) :
    runYaz0 ⟨s, d, p, true⟩ ops = runMem s ops := by
  induction ops generalizing s with
  | nil => rfl
  | cons op ops ih =>
    cases op with
    | read n =>
      simp only [runYaz0, runMem, Yaz0Reader.read, ByteStream.readStd]
      exact congrArg _ (ih _)
    | seek sf =>
      simp only [runYaz0, runMem, Yaz0Reader.seek]
      cases h : s.seekStd sf with
      | ok pr => simp only [h]; exact congrArg _ (ih _)
      | error k => simp only [h]; exact congrArg _ (ih _)

theorem runYaz0_inMemory (s : ByteStream) (d : List Nat) (p : Nat)
    (ops : List StreamOp) :
    runYaz0 ⟨s, d, p, false⟩ ops = runInMemory d p ops := by
  induction ops generalizing p with
  | nil => rfl
  | cons op ops ih =>
    cases op with
    | read n =>
      simp only [runYaz0, runInMemory, Yaz0Reader.read]
      exact congrArg _ (ih _)
    | seek sf =>
      cases sf with
      | start n =>
        simp [runYaz0, runInMemory, Yaz0Reader.seek, ih]
      | current ofs =>
        by_cases h : ((p : Int) + ofs) < 0 <;>
          simp [runYaz0, runInMemory, Yaz0Reader.seek, h, ih]
      | fromEnd ofs =>
        by_cases h : ((d.length : Int) + ofs) < 0 <;>
          simp [runYaz0, runInMemory, Yaz0Reader.seek, h, ih]

/-- C5: `Yaz0Reader::new` on a stream whose next 16 bytes do not form a valid
Yaz0 header does not fail: it rewinds to the construction position and the
resulting reader delegates every subsequent read and seek to the underlying
stream, so it behaves identically to it; on a valid Yaz0 header the reader
eagerly decompresses and serves every subsequent read and seek from the
in-memory decompressed contents (reference model `runInMemory`). -/
theorem c5_yaz0Reader_transparent_or_in_memory (s : ByteStream) :
    (yaz0HeaderAccepts s = false →
      yaz0ReaderNew s = RunResult.ok ⟨s, [], 0, true⟩ ∧
      ∀ ops, runYaz0 ⟨s, [], 0, true⟩ ops = runMem s ops) ∧
    (∀ r, yaz0ReaderNew s = RunResult.ok r →
      ((r.transparent = true ↔ yaz0HeaderAccepts s = false) ∧
       (r.transparent = false →
         r.position = 0 ∧
         ∀ ops, runYaz0 r ops = runInMemory r.decompressed 0 ops))) := by
  constructor
  · intro hacc
    constructor
    · cases hparse : yaz0HeaderFromBinary s with
      | ok pr =>
        obtain ⟨h0, s1⟩ := pr
        simp only [yaz0HeaderAccepts, hparse] at hacc
        simp only [yaz0ReaderNew, hparse, hacc, Bool.false_eq_true, if_false,
          ByteStream.goto]
      | error e =>
        simp only [yaz0ReaderNew, hparse, ByteStream.goto]
    · intro ops
      exact runYaz0_transparent s [] 0 ops
  · intro r hr
    cases hparse : yaz0HeaderFromBinary s with
    | ok pr =>
      obtain ⟨h0, s1⟩ := pr
      by_cases hv : yaz0HeaderIsValid h0
      · cases hdec : yaz0Decompress s1 h0.decompressedSize with
        | ok pr2 =>
          obtain ⟨data, s2⟩ := pr2
          simp only [yaz0ReaderNew, hparse, hv, if_true, hdec] at hr
          cases hr
          constructor
          · simp [yaz0HeaderAccepts, hparse, hv]
          · intro _
            exact ⟨rfl, fun ops => runYaz0_inMemory s2 data 0 ops⟩
        | err e =>
          simp only [yaz0ReaderNew, hparse, hv, if_true, hdec] at hr
          cases hr
        | panicked =>
          simp only [yaz0ReaderNew, hparse, hv, if_true, hdec] at hr
          cases hr
      · simp only [yaz0ReaderNew, hparse] at hr
        rw [if_neg hv] at hr
        cases hr
        constructor
        · simp [yaz0HeaderAccepts, hparse]
          simpa using hv
        · intro hfalse
          cases hfalse
    | error e =>
      simp only [yaz0ReaderNew, hparse] at hr
      cases hr
      constructor
      · simp [yaz0HeaderAccepts, hparse]
      · intro hfalse
        cases hfalse

/-- A 16-byte stream with wrong magic `Test` (the `bad_magic` unit test
input). -/
def c5sInv : ByteStream :=
  ⟨[0x54, 0x65, 0x73, 0x74, 0xC0, 0xDE, 0xC0, 0xDE,
    0x00, 0x00, 0x00, 0x00, 0x00, 0x00, 0x00, 0x00], 0⟩

/-- A valid Yaz0 stream: magic, decompressed size 2, reserved words, then one
code byte 0xC0 and the two literal bytes `ab`. -/
def c5sVal : ByteStream :=
  ⟨[0x59, 0x61, 0x7A, 0x30, 0x00, 0x00, 0x00, 0x02,
    0x00, 0x00, 0x00, 0x00, 0x00, 0x00, 0x00, 0x00,
    0xC0, 0x61, 0x62], 0⟩

/-- A sample operation sequence exercising reads and all three seek modes. -/
def c5ops : List StreamOp :=
  [.read 2, .seek (.start 1), .read 4, .seek (.current (-1)),
   .seek (.fromEnd (-2)), .read 1]

/-- The reader built over the valid Yaz0 stream. -/
def c5rVal : Yaz0Reader :=
  (yaz0ReaderNew c5sVal).toOption.getD ⟨⟨[], 0⟩, [], 0, true⟩

theorem c5_witness :
    (yaz0ReaderNew c5sInv = RunResult.ok ⟨c5sInv, [], 0, true⟩ ∧
     runYaz0 ⟨c5sInv, [], 0, true⟩ c5ops = runMem c5sInv c5ops) ∧
    (c5rVal.position = 0 ∧
     runYaz0 c5rVal c5ops = runInMemory c5rVal.decompressed 0 c5ops) := by
  refine ⟨?_, ?_⟩
  · have h := (c5_yaz0Reader_transparent_or_in_memory c5sInv).1 (by decide)
    exact ⟨h.1, h.2 c5ops⟩
  · have h := ((c5_yaz0Reader_transparent_or_in_memory c5sVal).2 c5rVal (by rfl)).2
      (by rfl)
    exact ⟨h.1, h.2 c5ops⟩

/-! ## C2 and C10: concrete decompress_into behaviour -/

/-- The Yaz0 payload of scenario 4: code byte 0xC0, literals `ab`, one
back-reference `b0 = 0x20, b1 = 0x00`. -/
def c2stream : ByteStream := ⟨[0xC0, 0x61, 0x62, 0x20, 0x00], 0⟩

/-- C2 counterexample: decompressing the scenario-4 payload into a 6-byte
destination does not produce `abaaaa` as the claim states.  (The
back-reference field 0x2000 has stored offset 0, i.e. copy distance 1, which
repeats the previous byte `b`.) -/
theorem c2_counterexample :
    (yaz0Decompress c2stream 6).toOption.map Prod.fst ≠
      some [0x61, 0x62, 0x61, 0x61, 0x61, 0x61] := by decide

/-- C2 amended: decompressing the scenario-4 payload into a 6-byte
destination succeeds and produces exactly `abbbbb` — the overlapping copy at
distance 1 extends a run of the last literal `b`. -/
theorem c2_amended :
    (yaz0Decompress c2stream 6).toOption.map Prod.fst =
      some [0x61, 0x62, 0x62, 0x62, 0x62, 0x62] := by decide

/-- C10: `decompress_into` can index the destination out of bounds.  On the
stream `[0x80, 'a', 0x10, 0x00]` with a 2-byte destination the first event
writes the literal `a`, and the back-reference (distance 1, length 3) then
writes `destination[2]` past the end of the buffer: a Rust panic, not a
returned typed error. -/
theorem c10_oob_panic :
    yaz0DecompressInto ⟨[0x80, 0x61, 0x10, 0x00], 0⟩ (List.replicate 2 0) =
      RunResult.panicked := by decide

/-! ## REL relocations (src/rel.rs) -/

/-- The `ImportKind` enum. -/
inductive ImportKind where
  | none
  | addr32
  | addr24
  | addr16
  | addr16Lo
  | addr16Hi
  | addr16Ha
  | addr14
  | rel24
  | rel14
  | dolphinNop
  | dolphinSection
  | dolphinEnd
  | dolphinMRKREF
deriving DecidableEq

/-- Whether a kind is one of the real relocation kinds (the Addr*/Rel*
kinds), i.e. reaches the default arm of the iterator's match. -/
def ImportKind.isReal : ImportKind → Bool
  | .addr32 | .addr24 | .addr16 | .addr16Lo | .addr16Hi | .addr16Ha | .addr14
  | .rel24 | .rel14 => true
  | _ => false

/-- The `Import` struct.  The Rust field `section` (a `u8`) is called
`sectionId` here because `section` is a Lean keyword; `offset` is a `u16`,
`addend` a `u32`. -/
structure Import where
  kind : ImportKind
  sectionId : Nat
  offset : Nat
  addend : Nat
deriving DecidableEq

/-- The `ImportTable` struct. -/
structure ImportTable where
  module : Nat
  offset : Nat
  imports : List Import
deriving DecidableEq

/-- The `SectionOffset` struct (field `section` renamed `sectionId`). -/
structure SectionOffset where
  sectionId : Nat
  offset : Nat
deriving DecidableEq

/-- The `Relocation` struct. -/
structure Relocation where
  kind : ImportKind
  module : Nat
  reference : SectionOffset
  target : SectionOffset
deriving DecidableEq

/-- The `Symbol` struct of src/rel.rs (named `RelSymbol` because Mathlib
already defines `Symbol`). -/
structure RelSymbol where
  sectionId : Nat
  offset : Nat
deriving DecidableEq

/-- The `Section` struct of src/rel.rs. -/
structure RelSection where
  offset : Nat
  size : Nat
  executable : Bool
  unknown : Bool
  data : List Nat
deriving DecidableEq

/-- The `Rel` struct (src/rel.rs lines 29-62), named `RelFile` because
Mathlib already defines `Rel`. -/
structure RelFile where
  module : Nat
  version : Nat
  nameOffset : Nat
  nameSize : Nat
  sections : List RelSection
  importTables : List ImportTable
  prolog : Option RelSymbol
  epilog : Option RelSymbol
  unresolved : Option RelSymbol
  alignment : Nat
  bssAlignment : Nat
  fixSize : Nat
  relocationOffset : Option Nat
  importOffset : Option Nat
  importSize : Option Nat
deriving DecidableEq

/-- Interpretation of the remaining imports of the current table by
`RelocationIterator::next` (src/rel.rs lines 394-455), with the continuation
`next` invoked when the table is exhausted.  The Rust iterator's state
`(table, index)` is represented by the suffix of tables still to process and
the suffix of imports of the current table; `sec`/`off` are
`self.section`/`self.offset`.  A real relocation kind with no section set
makes `next` return `None`, which ends iteration for the consumer: the
continuation is not invoked and the result is `[]`.  Offset arithmetic is
32-bit (`self.offset += import.offset as u32`). -/
def tableRelocs (m : Nat) (imports : List Import) (sec : Option Nat) (off : Nat)
    (next : Option Nat → Nat → List Relocation) : List Relocation :=
  match imports with
  | [] => next sec off
  | i :: is =>
    match i.kind with
    | .none | .dolphinEnd => tableRelocs m is sec off next
    | .dolphinMRKREF => tableRelocs m is sec off next
    | .dolphinNop => tableRelocs m is sec ((off + i.offset) % 4294967296) next
    | .dolphinSection => tableRelocs m is (some i.sectionId) 0 next
    | k =>
      match sec with
      | some sc =>
        let tgt := (off + i.offset) % 4294967296
        ⟨k, m, ⟨i.sectionId, i.addend⟩, ⟨sc, tgt⟩⟩ :: tableRelocs m is sec tgt next
      | Option.none => []

/-- All relocations yielded by repeatedly calling `RelocationIterator::next`
until it returns `None`, starting from the given table suffix and state.
When one table is exhausted the iterator advances to the next table carrying
`sec` and `off` unchanged (src/rel.rs lines 400-404 reset only the index). -/
def relocationsFrom : List ImportTable → Option Nat → Nat → List Relocation
  | [], _, _ => []
  | t :: rest, sec, off =>
    tableRelocs t.module t.imports sec off (fun s o => relocationsFrom rest s o)

/-- `Rel::relocations` followed by full iteration: initial state is table 0,
no section, offset 0. -/
def relRelocations (r : RelFile) : List Relocation :=
  relocationsFrom r.importTables Option.none 0

/-- The section-tracking part of the iterator state across one table's
imports: returns the final section state, or `Option.none` if a real
relocation kind is interpreted while no target section is set. -/
def okImports : List Import → Option Nat → Option (Option Nat)
  | [], sec => some sec
  | i :: is, sec =>
    match i.kind with
    | .dolphinSection => okImports is (some i.sectionId)
    | k =>
      if k.isReal then
        match sec with
        | some _ => okImports is sec
        | Option.none => Option.none
      else okImports is sec
  
/-- Whether every real relocation import in the table list is interpreted
with a target section set (section state carried across table boundaries,
as the iterator does). -/
def okTables : List ImportTable → Option Nat → Bool
  | [], _ => true
  | t :: rest, sec =>
    match okImports t.imports sec with
    | some sec' => okTables rest sec'
    | Option.none => false

/-- The real (Addr*/Rel*) imports of all tables, flattened in import-table
order then import-index order, each paired with its table's module. -/
def realImportsWithModule (ts : List ImportTable) : List (Nat × Import) :=
  (ts.map (fun t =>
    (t.imports.filter (fun i => i.kind.isReal)).map (fun i => (t.module, i)))).flatten

/-- Projection of a relocation to the data determined directly by its
originating import: module, kind and reference. -/
def relocProj (rc : Relocation) : Nat × ImportKind × SectionOffset :=
  (rc.module, rc.kind, rc.reference)

/-- Projection of a (module, import) pair to the same data. -/
def importProj (p : Nat × Import) : Nat × ImportKind × SectionOffset :=
  (p.1, p.2.kind, ⟨p.2.sectionId, p.2.addend⟩)

theorem tableRelocs_proj (m : Nat) (next : Option Nat → Nat → List Relocation)
    (L : List (Nat × ImportKind × SectionOffset)) :
    ∀ (imports : List Import) (sec sec2 : Option Nat),
    okImports imports sec = some sec2 →
    (∀ o, (next sec2 o).map relocProj = L) →
    ∀ off, (tableRelocs m imports sec off next).map relocProj =
      ((imports.filter (fun i => i.kind.isReal)).map (fun i => (m, i))).map importProj
        ++ L := by
  intro imports
  induction imports with
  | nil =>
    intro sec sec2 hok hnext off
    simp only [okImports, Option.some.injEq] at hok
    subst hok
    simp [tableRelocs, hnext off]
  | cons i is ih =>
    intro sec sec2 hok hnext off
    obtain ⟨ik, isec, ioff, iadd⟩ := i
    cases ik
    case none =>
      simp [okImports, ImportKind.isReal] at hok
      simpa [tableRelocs, ImportKind.isReal] using ih _ _ hok hnext off
    case dolphinEnd =>
      simp [okImports, ImportKind.isReal] at hok
      simpa [tableRelocs, ImportKind.isReal] using ih _ _ hok hnext off
    case dolphinMRKREF =>
      simp [okImports, ImportKind.isReal] at hok
      simpa [tableRelocs, ImportKind.isReal] using ih _ _ hok hnext off
    case dolphinNop =>
      simp [okImports, ImportKind.isReal] at hok
      simpa [tableRelocs, ImportKind.isReal]
        using ih _ _ hok hnext ((off + ioff) % 4294967296)
    case dolphinSection =>
      simp [okImports] at hok
      simpa [tableRelocs, ImportKind.isReal] using ih _ _ hok hnext 0
    all_goals
      simp only [okImports, ImportKind.isReal, if_true] at hok
    all_goals
      cases sec with
      | none => simp at hok
      | some sc =>
        simp at hok
        simpa [tableRelocs, ImportKind.isReal, relocProj, importProj]
          using ih _ _ hok hnext ((off + ioff) % 4294967296)

theorem relocationsFrom_proj : ∀ (ts : List ImportTable) (sec : Option Nat) (off : Nat),
    okTables ts sec = true →
    (relocationsFrom ts sec off).map relocProj =
      (realImportsWithModule ts).map importProj := by
  intro ts
  induction ts with
  | nil =>
    intro sec off _
    simp [relocationsFrom, realImportsWithModule]
  | cons t rest ih =>
    intro sec off hok
    simp only [okTables] at hok
    cases hoki : okImports t.imports sec with
    | none => rw [hoki] at hok; cases hok
    | some sec2 =>
      rw [hoki] at hok
      simp only [relocationsFrom]
      rw [tableRelocs_proj t.module _ ((realImportsWithModule rest).map importProj)
        t.imports sec sec2 hoki (fun o => ih sec2 o hok)]
      simp [realImportsWithModule]

/-- C1 amended: for a REL whose relocation stream interprets every
Addr*/Rel* import with a target section set (section state carried across
table boundaries), iterating `Rel::relocations()` emits exactly one
`Relocation` per such import, exactly once, in import-table order then
import-index order, with the module, kind and reference determined by that
import; a target section is set for every emitted relocation by
construction.  Without that proviso, the iterator returns `None` at the
first real import with no section set — ending iteration and dropping all
later relocations — rather than skipping it. -/
theorem c1_relocations_amended (r : RelFile) (hv : 2 ≤ r.version)
    (hok : okTables r.importTables Option.none = true) :
    (relRelocations r).map relocProj =
      (realImportsWithModule r.importTables).map importProj :=
  relocationsFrom_proj r.importTables Option.none 0 hok

/-- A REL (version 3) with one import table whose stream is
`[Addr32, SectionSwitch(1), Addr32, End]`: a real import precedes the first
SectionSwitch. -/
def c1Rel : RelFile :=
  ⟨5, 3, 0, 0, [], [⟨1, 0x40,
    [⟨.addr32, 2, 3, 4⟩, ⟨.dolphinSection, 1, 0, 0⟩,
     ⟨.addr32, 2, 0x10, 0x40⟩, ⟨.dolphinEnd, 0, 0, 0⟩]⟩],
   Option.none, Option.none, Option.none, 8, 8, 0, some 0, some 0, some 8⟩

/-- C1 counterexample: `c1Rel` has two Addr32 imports, but iterating
`relocations()` yields nothing at all — the Addr32 before the first
SectionSwitch makes `next` return `None`, so the later Addr32 (which has a
well-defined target) is never yielded, contradicting both "one Relocation
for every Addr*/Rel* import" and "a stream in which such an import precedes
any SectionSwitch still yields every later relocation". -/
theorem c1_counterexample :
    relRelocations c1Rel = [] ∧
    (realImportsWithModule c1Rel.importTables).length = 2 := by decide

/-- The scenario-2 REL: one import table
`[SectionSwitch(section=1), Nop(offset=0x1000), Addr32(section=2, offset=0x10,
addend=0x40), End]`. -/
def c1wRel : RelFile :=
  ⟨5, 3, 0, 0, [], [⟨1, 0x40,
    [⟨.dolphinSection, 1, 0, 0⟩, ⟨.dolphinNop, 0, 0x1000, 0⟩,
     ⟨.addr32, 2, 0x10, 0x40⟩, ⟨.dolphinEnd, 0, 0, 0⟩]⟩],
   Option.none, Option.none, Option.none, 8, 8, 0, some 0, some 0, some 8⟩

theorem c1_witness :
    2 ≤ c1wRel.version ∧ okTables c1wRel.importTables Option.none = true ∧
    (relRelocations c1wRel).map relocProj =
      (realImportsWithModule c1wRel.importTables).map importProj :=
  ⟨by decide, by decide, c1_relocations_amended c1wRel (by decide) (by decide)⟩

/-- C4 amended: when one import table is exhausted, iteration proceeds to
the next table with `section` and `offset` carried over unchanged — the
iterator resets only the import index, not the target-section state. -/
theorem c4_no_reset_at_table_boundary (m o : Nat) (rest : List ImportTable)
    (sec : Option Nat) (off : Nat) :
    relocationsFrom (⟨m, o, []⟩ :: rest) sec off = relocationsFrom rest sec off := by
  simp [relocationsFrom, tableRelocs]

/-- Two tables: the first only switches to section 1 and accumulates offset
7 via a Nop; the second begins directly with an Addr32. -/
def c4Rel : RelFile :=
  ⟨9, 3, 0, 0, [],
   [⟨3, 0x40, [⟨.dolphinSection, 1, 0, 0⟩, ⟨.dolphinNop, 0, 7, 0⟩,
               ⟨.dolphinEnd, 0, 0, 0⟩]⟩,
    ⟨3, 0x60, [⟨.addr32, 2, 3, 4⟩, ⟨.dolphinEnd, 0, 0, 0⟩]⟩],
   Option.none, Option.none, Option.none, 8, 8, 0, some 0, some 0, some 16⟩

/-- C4 counterexample: iterating `c4Rel` yields one relocation whose target
is section 1 at offset 7 + 3 = 10 — state visibly carried over from the
first table.  Had the state been reset to `(None, 0)` before the second
table (as the claim states), its Addr32 would have been interpreted with no
section set and nothing would be yielded, as the second conjunct shows for
the same table processed from the reset state. -/
theorem c4_counterexample :
    relRelocations c4Rel = [⟨.addr32, 3, ⟨2, 4⟩, ⟨1, 10⟩⟩] ∧
    relocationsFrom [⟨3, 0x60, [⟨.addr32, 2, 3, 4⟩, ⟨.dolphinEnd, 0, 0, 0⟩]⟩]
      Option.none 0 = [] := by decide

/-! ## C9: error classification of substrate reads (src/helper/reader.rs) -/

/-- C9 counterexample: a read of 4 bytes from an exhausted 2-byte stream
fails with `ReadFailed(4, UnexpectedEof)` — `read_into_tracked` wraps every
`read_exact` failure, short reads included, as `ReadFailed`; the resulting
error is not an `UnexpectedEndOfData` variant as the claim states. -/
theorem c9_counterexample :
    ByteStream.readInto ⟨[0, 1], 0⟩ 4 =
      .error (.readFailed 4 .unexpectedEof) ∧
    Error.isUnexpectedEndOfData (.readFailed 4 .unexpectedEof) = false :=
  ⟨rfl, rfl⟩

/-- C9 amended: every failing substrate read — read-into-buffer, read-as-vec,
array reads, and the fixed-size integer reads — is classified as
`ReadFailed` carrying the requested byte count, whether the failure is
stream exhaustion (`UnexpectedEof`) or any other I/O error of the underlying
stream; exhaustion is not given a distinct `UnexpectedEndOfData`
classification. -/
theorem c9_read_error_classification (s : ByteStream) (n : Nat)
    (h : s.data.length < s.pos + n) :
    (s.readInto n = .error (.readFailed n .unexpectedEof) ∧
     s.readAsVec n = .error (.readFailed n .unexpectedEof) ∧
     s.u8Array n = .error (.readFailed n .unexpectedEof)) ∧
    (s.data.length < s.pos + 1 → s.u8 = .error (.readFailed 1 .unexpectedEof)) ∧
    (s.data.length < s.pos + 2 → s.bu16 = .error (.readFailed 2 .unexpectedEof)) ∧
    (s.data.length < s.pos + 4 → s.bu32 = .error (.readFailed 4 .unexpectedEof)) ∧
    (∀ (k : IoErrorKind) (m : Nat),
      readIntoTracked (.error k) m = .error (.readFailed m k)) := by
  have hshort : ∀ m, s.data.length < s.pos + m →
      s.readInto m = .error (.readFailed m .unexpectedEof) := by
    intro m hm
    simp only [ByteStream.readInto, ByteStream.readExact, readIntoTracked]
    rw [if_neg (by omega)]
  refine ⟨⟨hshort n h, hshort n h, hshort n h⟩, ?_, ?_, ?_, fun k m => rfl⟩
  · intro h1
    simp only [ByteStream.u8, hshort 1 h1, Bind.bind, Except.bind]
  · intro h2
    simp only [ByteStream.bu16, hshort 2 h2, Bind.bind, Except.bind]
  · intro h4
    simp only [ByteStream.bu32, hshort 4 h4, Bind.bind, Except.bind]

theorem c9_witness :
    ((ByteStream.readInto ⟨[0, 1], 0⟩ 4 = .error (.readFailed 4 .unexpectedEof) ∧
      ByteStream.readAsVec ⟨[0, 1], 0⟩ 4 = .error (.readFailed 4 .unexpectedEof) ∧
      ByteStream.u8Array ⟨[0, 1], 0⟩ 4 = .error (.readFailed 4 .unexpectedEof)) ∧
     ((⟨[0, 1], 0⟩ : ByteStream).data.length < 0 + 1 →
       ByteStream.u8 ⟨[0, 1], 0⟩ = .error (.readFailed 1 .unexpectedEof)) ∧
     ((⟨[0, 1], 0⟩ : ByteStream).data.length < 0 + 2 →
       ByteStream.bu16 ⟨[0, 1], 0⟩ = .error (.readFailed 2 .unexpectedEof)) ∧
     ((⟨[0, 1], 0⟩ : ByteStream).data.length < 0 + 4 →
       ByteStream.bu32 ⟨[0, 1], 0⟩ = .error (.readFailed 4 .unexpectedEof)) ∧
     (∀ (k : IoErrorKind) (m : Nat),
       readIntoTracked (.error k) m = .error (.readFailed m k))) :=
  c9_read_error_classification ⟨[0, 1], 0⟩ 4 (by decide)

/-! ## DOL parsing (src/format/dol.rs) -/

/-- `read_bu32!(bytes, o)`: big-endian u32 at byte offset `o`. -/
def bu32At (bytes : List Nat) (o : Nat) : Nat :=
  beVal ((bytes.drop o).take 4)

/-- `read_bu32_array!(bytes, o, count)`. -/
def bu32ArrayAt (bytes : List Nat) (o count : Nat) : List Nat :=
  (List.range count).map (fun i => bu32At bytes (o + 4 * i))

/-- `TakeLastN::take_last_n`. -/
def takeLastN (l : List Nat) (n : Nat) : List Nat :=
  if l.length < n then l else l.drop (l.length - n)

/-- `slice::windows(k)`: all contiguous subslices of length `k` (empty when
the slice is shorter than `k`). -/
def windowsN (k : Nat) (l : List Nat) : List (List Nat) :=
  (List.range (l.length + 1 - k)).map (fun i => (l.drop i).take k)

/-- `Iterator::step_by(k)`: the elements at indices 0, k, 2k, ... -/
def stepBy {α : Type} (k : Nat) (l : List α) : List α :=
  (List.range l.length).filterMap
    (fun i => if i % k = 0 then l.get? i else Option.none)

/-- `SectionKind`. -/
inductive SectionKind where
  | text
  | data
  | bss
deriving DecidableEq

/-- `section_name` (src/format/dol.rs lines 177-210); the out-of-range arms
panic in Rust, modelled by `Option.none`. -/
def sectionName : SectionKind → Nat → Option String
  | .text, 0 => some ".init"
  | .text, 1 => some ".text"
  | .text, 2 => some ".text.2"
  | .text, 3 => some ".text.3"
  | .text, 4 => some ".text.4"
  | .text, 5 => some ".text.5"
  | .text, 6 => some ".text.6"
  | .text, _ => Option.none
  | .data, 0 => some "extab_"
  | .data, 1 => some "extabindex_"
  | .data, 2 => some ".ctors"
  | .data, 3 => some ".dtors"
  | .data, 4 => some ".rodata"
  | .data, 5 => some ".data"
  | .data, 6 => some ".sdata"
  | .data, 7 => some ".sdata2"
  | .data, 8 => some ".data8"
  | .data, 9 => some ".data9"
  | .data, 10 => some ".data10"
  | .data, _ => Option.none
  | .bss, 0 => some ".bss"
  | .bss, 1 => some ".sbss"
  | .bss, 2 => some ".sbss2"
  | .bss, _ => Option.none

/-- The raw DOL `Header`. -/
structure DolHeader where
  textOffset : List Nat
  dataOffset : List Nat
  textAddress : List Nat
  dataAddress : List Nat
  textSize : List Nat
  dataSize : List Nat
  bssAddress : Nat
  bssSize : Nat
  entrypoint : Nat
deriving DecidableEq

/-- A DOL `Section`. -/
structure DolSection where
  kind : SectionKind
  name : String
  address : Nat
  size : Nat
  alignedSize : Nat
  data : List Nat
deriving DecidableEq

/-- A `RomCopyInfo` record. -/
structure RomCopyInfo where
  romAddress : Nat
  ramAddress : Nat
  size : Nat
deriving DecidableEq

/-- A `BssInitInfo` record. -/
structure BssInitInfo where
  ramAddress : Nat
  size : Nat
deriving DecidableEq

/-- The parsed `Dol`. -/
structure Dol where
  header : DolHeader
  romCopyInfo : Option (List RomCopyInfo)
  bssInitInfo : Option (List BssInitInfo)
  sections : List DolSection
deriving DecidableEq

/-- `rom_copy_info_search` (src/format/dol.rs lines 147-159): over the last
0x200 bytes of `.init`, slide a 12-byte window (every window parses, the
length is always 12), skip until a record whose first two fields equal the
`.init` address, then step by 12 and take records until a zero rom address.
The whole result is wrapped in `Some` unconditionally. -/
def romCopyInfoSearch (data : List Nat) (address : Nat) :
    Option (List RomCopyInfo) :=
  some ((stepBy 12
    (((windowsN 12 (takeLastN data 0x200)).map
      (fun w => RomCopyInfo.mk (bu32At w 0) (bu32At w 4) (bu32At w 8))).dropWhile
      (fun x => x.romAddress != address || x.ramAddress != address))).takeWhile
    (fun x => x.romAddress != 0))

/-- `bss_init_info_search` (src/format/dol.rs lines 163-175): the symmetric
probe with 8-byte windows keyed on the ram address. -/
def bssInitInfoSearch (data : List Nat) (address : Nat) :
    Option (List BssInitInfo) :=
  some ((stepBy 8
    (((windowsN 8 (takeLastN data 0x200)).map
      (fun w => BssInitInfo.mk (bu32At w 0) (bu32At w 4))).dropWhile
      (fun x => x.ramAddress != address))).takeWhile
    (fun x => x.ramAddress != 0))

/-- Rust slice expression `&bytes[a..b]`: panics (`Option.none`) unless
`a ≤ b ≤ bytes.len()`. -/
def sliceRange (bytes : List Nat) (a b : Nat) : Option (List Nat) :=
  if a ≤ b ∧ b ≤ bytes.length then some ((bytes.drop a).take (b - a))
  else Option.none

/-- The two validation loops of `from_bytes` (src/format/dol.rs lines
229-263): non-empty slots must satisfy `0x100 ≤ offset` and
`offset + size ≤ bytes.len()`, with `checked_add` guarding 32-bit overflow. -/
def dolValidate (checks : List (Nat × Nat)) (idx len : Nat)
    (mkErr : Nat → Error) : Except Error Unit :=
  match checks with
  | [] => .ok ()
  | (offset, size) :: rest =>
    if offset = 0 ∨ size = 0 then dolValidate rest (idx + 1) len mkErr
    else if 0xFFFFFFFF < offset + size then .error .integerOverflow
    else if 0x100 ≤ offset ∧ offset + size ≤ len then
      dolValidate rest (idx + 1) len mkErr
    else .error (mkErr idx)

/-- Section materialization (src/format/dol.rs lines 265-293): every slot of
the zipped offset/address/size arrays yields a `Section` whose
`aligned_size` is set to the reported `size` and whose data is the slice
`bytes[offset .. offset + size]` (a panic when out of range). -/
def dolMkSections (bytes : List Nat) (kind : SectionKind) :
    List Nat → List Nat → List Nat → Nat → Option (List DolSection)
  | offset :: os, address :: adrs, size :: szs, idx => do
    let name ← sectionName kind idx
    let data ← sliceRange bytes offset (offset + size)
    let rest ← dolMkSections bytes kind os adrs szs (idx + 1)
    some (⟨kind, name, address, size, size, data⟩ :: rest)
  | _, _, _, _ => some []

/-- `align_next(x, 32)` on u32: `x.wrapping_add(31) & !31`. -/
def alignNext32 (x : Nat) : Nat :=
  (x + 31) % 4294967296 - (x + 31) % 4294967296 % 32

/-- The derived bss sections built from `__bss_init_info` entries
(src/format/dol.rs lines 317-329); `section_name(Bss, index)` panics past
index 2. -/
def dolMkBssSections : List BssInitInfo → Nat → Option (List DolSection)
  | [], _ => some []
  | e :: rest, idx => do
    let name ← sectionName .bss idx
    let others ← dolMkBssSections rest (idx + 1)
    some (⟨.bss, name, e.ramAddress, e.size, alignNext32 e.size, []⟩ :: others)

/-- The size-overwrite pass (src/format/dol.rs lines 306-311): a section
whose address matches a rom-copy record takes that record's size. -/
def dolOverwriteSize (rc : Option (List RomCopyInfo)) (sec : DolSection) :
    DolSection :=
  match rc with
  | some v =>
    match v.find? (fun x => x.romAddress == sec.address) with
    | some x => ⟨sec.kind, sec.name, sec.address, x.size, sec.alignedSize, sec.data⟩
    | Option.none => sec
  | Option.none => sec

/-- `from_bytes` (src/format/dol.rs lines 212-347). -/
def dolFromBytes (bytes : List Nat) : RunResult Dol :=
  if bytes.length < 0x100 then .err (.dolInvalidHeaderSize bytes.length)
  else
    let header : DolHeader :=
      ⟨bu32ArrayAt bytes 0x00 7, bu32ArrayAt bytes 0x1C 11,
       bu32ArrayAt bytes 0x48 7, bu32ArrayAt bytes 0x64 11,
       bu32ArrayAt bytes 0x90 7, bu32ArrayAt bytes 0xAC 11,
       bu32At bytes 0xD8, bu32At bytes 0xDC, bu32At bytes 0xE0⟩
    match dolValidate (header.textOffset.zip header.textSize) 0 bytes.length
        Error.dolTextSectionOutOfBounds with
    | .error e => .err e
    | .ok _ =>
    match dolValidate (header.dataOffset.zip header.dataSize) 0 bytes.length
        Error.dolDataSectionOutOfBounds with
    | .error e => .err e
    | .ok _ =>
    match dolMkSections bytes .text header.textOffset header.textAddress
        header.textSize 0 with
    | Option.none => .panicked
    | some textSections =>
    match dolMkSections bytes .data header.dataOffset header.dataAddress
        header.dataSize 0 with
    | Option.none => .panicked
    | some dataSections =>
      let sections := (textSections ++ dataSections).filter (fun s => s.size != 0)
      let init := sections.find? (fun x => x.name == ".init")
      let romCopyInfo : Option (List RomCopyInfo) :=
        match init with
        | some i => romCopyInfoSearch i.data i.address
        | Option.none => Option.none
      let bssInitInfo : Option (List BssInitInfo) :=
        match init with
        | some i => bssInitInfoSearch i.data header.bssAddress
        | Option.none => Option.none
      let sections := sections.map (fun sec => dolOverwriteSize romCopyInfo sec)
      match bssInitInfo with
      | some l =>
        match dolMkBssSections l 0 with
        | Option.none => .panicked
        | some bssSections =>
          .ok ⟨header, romCopyInfo, bssInitInfo, sections ++ bssSections⟩
      | Option.none =>
        .ok ⟨header, romCopyInfo, bssInitInfo,
          sections ++ [⟨.bss, ".bss", header.bssAddress, header.bssSize,
            header.bssSize, []⟩]⟩

/-- `Dol::section_by_name`. -/
def dolSectionByName (d : Dol) (name : String) : Option DolSection :=
  d.sections.find? (fun x => x.name == name)

/-- `Dol::entrypoint`. -/
def dolEntrypoint (d : Dol) : Nat := d.header.entrypoint

/-- Big-endian byte encoding of a 32-bit value (used to build test DOLs). -/
def be32 (v : Nat) : List Nat :=
  [v / 16777216 % 256, v / 65536 % 256, v / 256 % 256, v % 256]

/-- A minimal DOL: `.text[0]` at offset 0x100, load address 0x80003100, size
0x21 (not a multiple of 32), entry point 0x80003100, zero bss fields, and
0x21 zero payload bytes. -/
def c3bytes : List Nat :=
  be32 0x100 ++ List.replicate 24 0 ++ List.replicate 44 0 ++
  be32 0x80003100 ++ List.replicate 24 0 ++ List.replicate 44 0 ++
  be32 0x21 ++ List.replicate 24 0 ++ List.replicate 44 0 ++
  be32 0 ++ be32 0 ++ be32 0x80003100 ++ List.replicate 28 0 ++
  List.replicate 0x21 0

/-- C3: `from_bytes` accepts `c3bytes` and the resulting single section has
`aligned_size = size = 0x21`, which is not a multiple of 32 — the code
assigns `aligned_size: *size` for text and data sections instead of rounding
up, contradicting the `Section::aligned_size` documentation and the spec. -/
theorem c3_alignedSize_not_rounded :
    (dolFromBytes c3bytes).toOption.map
        (fun d => d.sections.map (fun s => (s.alignedSize, s.size))) =
      some [(0x21, 0x21)] ∧
    0x21 % 32 ≠ 0 := by decide

/-- The scenario-1 DOL: `.text[0]` at offset 0x100, size 0x40, load address
0x80003100, entry point 0x80003100, zero bss fields, 0x40 zero payload
bytes.  Neither probe finds a matching record. -/
def c8bytes : List Nat :=
  be32 0x100 ++ List.replicate 24 0 ++ List.replicate 44 0 ++
  be32 0x80003100 ++ List.replicate 24 0 ++ List.replicate 44 0 ++
  be32 0x40 ++ List.replicate 24 0 ++ List.replicate 44 0 ++
  be32 0 ++ be32 0 ++ be32 0x80003100 ++ List.replicate 28 0 ++
  List.replicate 0x40 0

/-- C8 counterexample: on the scenario-1 DOL both probes find no matching
record, yet the parsed `Dol` has `rom_copy_info = Some([])` and
`bss_init_info = Some([])` — not `None` as the claim states (the search
functions wrap their result in `Some` unconditionally). -/
theorem c8_counterexample :
    (dolFromBytes c8bytes).toOption.map
        (fun d => (d.romCopyInfo, d.bssInitInfo)) =
      some (some [], some []) ∧
    some ([] : List RomCopyInfo) ≠ (Option.none : Option (List RomCopyInfo)) := by
  decide

theorem dolOverwriteSize_name (rc : Option (List RomCopyInfo))
    (sec : DolSection) : (dolOverwriteSize rc sec).name = sec.name := by
  cases rc with
  | none => rfl
  | some v =>
    simp only [dolOverwriteSize]
    split <;> rfl

theorem sectionNameBss_ne_init {idx : Nat} {nm : String}
    (h : sectionName .bss idx = some nm) : (nm == ".init") = false := by
  match idx with
  | 0 => cases h; decide
  | 1 => cases h; decide
  | 2 => cases h; decide
  | n + 3 => cases h

theorem dolMkBssSections_no_init :
    ∀ (l : List BssInitInfo) (idx : Nat) (secs : List DolSection),
    dolMkBssSections l idx = some secs →
    secs.find? (fun x => x.name == ".init") = Option.none := by
  intro l
  induction l with
  | nil =>
    intro idx secs h
    simp only [dolMkBssSections, Option.some.injEq] at h
    subst h
    rfl
  | cons e rest ih =>
    intro idx secs h
    simp only [dolMkBssSections, Option.bind_eq_bind, Option.bind_eq_some] at h
    obtain ⟨nm, hnm, others, hothers, hsecs⟩ := h
    obtain rfl : _ = secs := Option.some.inj hsecs
    rw [List.find?_cons_of_neg _ (by simp [sectionNameBss_ne_init hnm])]
    exact ih (idx + 1) others hothers
/-- C8 amended: for every DOL accepted by `from_bytes`, `rom_copy_info` and
`bss_init_info` are present (`Some`) exactly when the parsed DOL has an
`.init` section — the probes themselves always return `Some` (an empty
vector when no matching record is found), never `None`. -/
theorem c8_probe_presence (bytes : List Nat) (d : Dol)
    (h : dolFromBytes bytes = .ok d) :
    d.romCopyInfo.isSome = (dolSectionByName d ".init").isSome ∧
    d.bssInitInfo.isSome = (dolSectionByName d ".init").isSome := by
  unfold dolFromBytes at h
  split at h
  · cases h
  · dsimp only at h
    split at h
    · cases h
    · split at h
      · cases h
      · split at h
        · cases h
        · split at h
          · cases h
          · rename_i xt tsecs htext xd dsecs hdata
            set SS := List.filter (fun s => s.size != 0) (tsecs ++ dsecs) with hSS
            cases hinit : List.find? (fun x => x.name == ".init") SS with
            | none =>
              rw [hinit] at h
              dsimp only at h
              cases h
              refine ⟨?_, ?_⟩ <;>
                simp [dolSectionByName, List.find?_append, hinit, dolOverwriteSize,
                  Function.comp, dolOverwriteSize_name]
            | some i =>
              rw [hinit] at h
              dsimp only [romCopyInfoSearch, bssInitInfoSearch] at h
              split at h
              · cases h
              · rename_i bssSecs hbss
                cases h
                have hmem : i ∈ SS := List.mem_of_find?_eq_some hinit
                have hname : i.name = ".init" := by
                  have := List.find?_some hinit
                  simpa using this
                refine ⟨?_, ?_⟩ <;>
                  (simp [dolSectionByName, List.find?_append, Function.comp,
                    dolOverwriteSize_name, hinit]
                   exact Or.inl ⟨i, hmem, hname⟩)

/-- The parsed scenario-1 DOL. -/
def c8Dol : Dol :=
  (dolFromBytes c8bytes).toOption.getD ⟨⟨[], [], [], [], [], [], 0, 0, 0⟩,
    Option.none, Option.none, []⟩

theorem c8_witness :
    c8Dol.romCopyInfo.isSome = (dolSectionByName c8Dol ".init").isSome ∧
    c8Dol.bssInitInfo.isSome = (dolSectionByName c8Dol ".init").isSome :=
  c8_probe_presence c8bytes c8Dol (by rfl)

/-! ## CISO (src/ciso.rs) -/

/-- The CISO `Header`: block size plus the block list, each block a
(file offset, is-stored) pair. -/
structure CisoHeader where
  blockSize : Nat
  blocks : List (Nat × Bool)
deriving DecidableEq

/-- The `block_total` computation of `Header::from_binary`: the maximum of
`i + 1` over the indices `i` whose map byte is non-zero (Rust
`filter_map(..).max()`). -/
def cisoBlockTotal (blockMap : List Nat) : Option Nat :=
  (blockMap.enum.filterMap
    (fun p => if p.2 ≠ 0 then some (p.1 + 1) else Option.none)).max?

/-- The offset-assignment loop of `Header::from_binary` (src/ciso.rs lines
83-89): blocks with a stored flag receive the running offset, which then
advances by the block size; other blocks keep offset 0. -/
def cisoAssignOffsets (blockSize : Nat) : List Bool → Nat → List (Nat × Bool)
  | [], _ => []
  | stored :: rest, offset =>
    if stored then (offset, true) :: cisoAssignOffsets blockSize rest (offset + blockSize)
    else (0, false) :: cisoAssignOffsets blockSize rest offset

/-- The block list of `Header::from_binary`: the first `block_total` map
bytes, a block being stored exactly when its byte equals 1 (`*x.1 == 1`). -/
def cisoMkBlocks (blockMap : List Nat) (blockTotal blockSize : Nat) :
    List (Nat × Bool) :=
  cisoAssignOffsets blockSize ((blockMap.take blockTotal).map (fun x => x == 1)) 0

/-- `Header::from_binary` (src/ciso.rs lines 53-95). -/
def cisoHeaderFromBinary (s : ByteStream) : Except Error (CisoHeader × ByteStream) := do
  let (magic, s) ← s.bu32
  let (blockSize, s) ← s.bu32
  if magic ≠ 0x4F534943 then
    .error (.parse (.invalidMagic "expected: 0x4F534943"))
  else if blockSize = 0 ∨ 0x8000000 < blockSize then
    .error (.parse (.invalidRange "0 < block size <= 0x8000000"))
  else do
    let (blockMap, s) ← s.u8Array (0x8000 - 8)
    match cisoBlockTotal blockMap with
    | some blockTotal => .ok (⟨blockSize, cisoMkBlocks blockMap blockTotal blockSize⟩, s)
    | Option.none => .error (.parse (.invalidHeader "invalid block map"))

/-- The `CisoReader` state: parsed header, stream and data offset (the
stream position right after the 0x8000-byte header). -/
structure CisoReader where
  header : CisoHeader
  reader : ByteStream
  dataOffset : Nat
deriving DecidableEq

/-- `CisoReader::new`. -/
def cisoReaderNew (s : ByteStream) : Except Error CisoReader := do
  let (header, s') ← cisoHeaderFromBinary s
  .ok ⟨header, s', s'.pos⟩

/-- `CisoReader::block_size`. -/
def cisoBlockSize (r : CisoReader) : Nat := r.header.blockSize

/-- `CisoReader::total_size`. -/
def cisoTotalSize (r : CisoReader) : Nat :=
  r.header.blocks.length * r.header.blockSize

/-- `CisoReader::read_block` (src/ciso.rs lines 125-133): index the block
list (a panic when out of range); a stored block seeks to
`data_offset + offset` and reads one block, an omitted block returns a
zeroed buffer. -/
def cisoReadBlock (r : CisoReader) (index : Nat) :
    RunResult (List Nat × CisoReader) :=
  match r.header.blocks.get? index with
  | Option.none => .panicked
  | some (offset, hasData) =>
    if hasData then
      match (r.reader.goto (r.dataOffset + offset)).readInto r.header.blockSize with
      | .error e => .err e
      | .ok (buf, s') => .ok (buf, ⟨r.header, s', r.dataOffset⟩)
    else
      .ok (List.replicate r.header.blockSize 0, r)

/-- The number of stored (`== 1`) bytes in a map prefix. -/
def countStored (l : List Nat) : Nat := (l.filter (fun x => x == 1)).length

/-- The block-map bytes of a CISO stream: the 0x7FF8 bytes following the
magic and the block size at the construction position. -/
def cisoMapBytes (s : ByteStream) : List Nat :=
  (s.data.drop (s.pos + 8)).take 0x7FF8

theorem readInto_ok (s : ByteStream) (n : Nat) (h : s.pos + n ≤ s.data.length) :
    s.readInto n = .ok ((s.data.drop s.pos).take n, ⟨s.data, s.pos + n⟩) := by
  simp [ByteStream.readInto, ByteStream.readExact, readIntoTracked, h]

theorem cisoAssignOffsets_length (bs : Nat) :
    ∀ (l : List Bool) (base : Nat),
    (cisoAssignOffsets bs l base).length = l.length := by
  intro l
  induction l with
  | nil => intro base; rfl
  | cons st rest ih =>
    intro base
    cases st <;> simp [cisoAssignOffsets, ih]

theorem cisoAssignOffsets_get? (bs : Nat) :
    ∀ (l : List Bool) (base i : Nat),
    (cisoAssignOffsets bs l base)[i]? =
      (l[i]?).map (fun st =>
        (if st then base + bs * ((l.take i).filter id).length else 0, st)) := by
  intro l
  induction l with
  | nil => intro base i; rfl
  | cons st rest ih =>
    intro base i
    cases i with
    | zero => cases st <;> simp [cisoAssignOffsets]
    | succ i =>
      cases hr : rest[i]? with
      | none =>
        cases st <;>
          simp [cisoAssignOffsets, ih _ i, hr]
      | some st2 =>
        cases st <;> cases st2 <;>
          simp [cisoAssignOffsets, ih _ i, hr, List.take_succ_cons,
            List.filter_cons, Nat.mul_succ, Nat.add_assoc,
            Nat.add_comm, Nat.add_left_comm]

theorem cisoBlockTotal_le {m : List Nat} {bt : Nat}
    (h : cisoBlockTotal m = some bt) : bt ≤ m.length := by
  have hmem : bt ∈ m.enum.filterMap
      (fun p => if p.2 ≠ 0 then some (p.1 + 1) else Option.none) :=
    List.max?_mem (fun a b => by omega) h
  rw [List.mem_filterMap] at hmem
  obtain ⟨p, hp, hf⟩ := hmem
  have hlt : p.1 < m.length := by
    have hg := List.mem_enum_iff_getElem?.1 hp
    by_contra hge
    rw [List.getElem?_eq_none (by omega)] at hg
    cases hg
  by_cases hz : p.2 ≠ 0
  · rw [if_pos hz] at hf
    cases hf
    omega
  · rw [if_neg hz] at hf
    cases hf

/-- C6 amended: for every CISO accepted by `CisoReader::new`, the block list
covers exactly the map entries up to the last non-zero byte (`block_total`),
`total_size()` equals that count times the block size, the data offset is
0x8000 past the construction position, a block whose map byte is exactly 1
is stored — placed contiguously in on-disc order at offset
`block_size * (number of stored blocks before it)` past the data offset,
which `read_block` returns when available — and a block whose map byte is
anything other than 1 (zero included) reads as all zero bytes. -/
theorem c6_ciso_block_semantics (s : ByteStream) (r : CisoReader)
    (h : cisoReaderNew s = .ok r) :
    ∃ bt, cisoBlockTotal (cisoMapBytes s) = some bt ∧
      r.header.blocks.length = bt ∧
      cisoTotalSize r = bt * cisoBlockSize r ∧
      r.dataOffset = s.pos + 0x8000 ∧
      (∀ i, i < bt →
        ((cisoMapBytes s).getD i 0 ≠ 1 →
          (cisoReadBlock r i).toOption.map Prod.fst =
            some (List.replicate (cisoBlockSize r) 0)) ∧
        ((cisoMapBytes s).getD i 0 = 1 →
          r.header.blocks.get? i = some
            (cisoBlockSize r * countStored ((cisoMapBytes s).take i), true) ∧
          (r.dataOffset + cisoBlockSize r * countStored ((cisoMapBytes s).take i)
              + cisoBlockSize r ≤ s.data.length →
            (cisoReadBlock r i).toOption.map Prod.fst =
              some ((s.data.drop (r.dataOffset +
                cisoBlockSize r * countStored ((cisoMapBytes s).take i))).take
                (cisoBlockSize r))))) := by
  unfold cisoReaderNew cisoHeaderFromBinary at h
  simp only [ByteStream.bu32, ByteStream.u8Array, ByteStream.readInto,
    ByteStream.readExact, readIntoTracked, bind, Except.bind] at h
  by_cases h4 : s.pos + 4 ≤ s.data.length
  case neg => simp [h4] at h
  case pos =>
  simp only [h4, if_true] at h
  by_cases h8 : s.pos + 4 + 4 ≤ s.data.length
  case neg => simp [h8] at h
  case pos =>
  simp only [h8, if_true] at h
  by_cases hm : beVal (List.take 4 (List.drop s.pos s.data)) ≠ 0x4F534943
  case pos => rw [if_pos hm] at h; cases h
  case neg =>
  rw [if_neg hm] at h
  by_cases hbs : beVal (List.take 4 (List.drop (s.pos + 4) s.data)) = 0 ∨
      134217728 < beVal (List.take 4 (List.drop (s.pos + 4) s.data))
  case pos => rw [if_pos hbs] at h; cases h
  case neg =>
  rw [if_neg hbs] at h
  by_cases hmap : s.pos + 4 + 4 + (32768 - 8) ≤ s.data.length
  case neg => simp [hmap] at h
  case pos =>
  simp only [hmap, if_true] at h
  have hmb : List.take (32768 - 8) (List.drop (s.pos + 4 + 4) s.data) =
      cisoMapBytes s := by
    norm_num [cisoMapBytes]
  rw [hmb] at h
  cases hbt : cisoBlockTotal (cisoMapBytes s) with
  | none => rw [hbt] at h; simp at h
  | some bt =>
    rw [hbt] at h
    simp only [Except.ok.injEq] at h
    subst h
    have hMlen : (cisoMapBytes s).length = 32760 := by
      simp only [cisoMapBytes, List.length_take, List.length_drop]
      omega
    have hbtle : bt ≤ (cisoMapBytes s).length := cisoBlockTotal_le hbt
    refine ⟨bt, rfl, ?_, ?_, ?_, ?_⟩
    · dsimp only
      rw [cisoMkBlocks, cisoAssignOffsets_length]
      simp only [List.length_map, List.length_take]
      omega
    · dsimp only [cisoTotalSize, cisoBlockSize]
      rw [cisoMkBlocks, cisoAssignOffsets_length]
      simp only [List.length_map, List.length_take]
      congr 1
      omega
    · show s.pos + 4 + 4 + (32768 - 8) = s.pos + 0x8000
      omega
    · intro i hi
      have hIlt : i < (cisoMapBytes s).length := by omega
      have hMi : (cisoMapBytes s)[i]? = some ((cisoMapBytes s).getD i 0) := by
        rw [List.getElem?_eq_getElem hIlt]
        simp [List.getD_eq_getElem?_getD, List.getElem?_eq_getElem hIlt]
      have hblocks : (cisoMkBlocks (cisoMapBytes s) bt
          (beVal (List.take 4 (List.drop (s.pos + 4) s.data))))[i]? =
          some (if ((cisoMapBytes s).getD i 0 == 1) then
              beVal (List.take 4 (List.drop (s.pos + 4) s.data)) *
                countStored ((cisoMapBytes s).take i)
            else 0, ((cisoMapBytes s).getD i 0 == 1)) := by
        rw [cisoMkBlocks, cisoAssignOffsets_get?]
        rw [List.getElem?_map, List.getElem?_take_of_lt hi, hMi]
        have hcT : ((((cisoMapBytes s).take bt).map (fun x => x == 1)).take i).filter
            id = (((cisoMapBytes s).take i).filter (fun x => x == 1)).map
            (fun x => x == 1) := by
          rw [← List.map_take, List.take_take, Nat.min_eq_left (Nat.le_of_lt hi),
            List.filter_map]
          simp [Function.comp_def]
        rw [hcT]
        simp [countStored]
      refine ⟨?_, ?_⟩
      · intro hne
        have hbeq : ((cisoMapBytes s).getD i 0 == 1) = false := by
          simpa using hne
        rw [hbeq] at hblocks
        simp [cisoReadBlock, cisoBlockSize, List.get?_eq_getElem?, hblocks,
          RunResult.toOption]
      · intro heq
        have hbeq : ((cisoMapBytes s).getD i 0 == 1) = true := by
          simpa using heq
        rw [hbeq] at hblocks
        refine ⟨?_, ?_⟩
        · simp [cisoBlockSize, List.get?_eq_getElem?, hblocks]
        · intro hbound
          dsimp only [cisoBlockSize] at hbound
          have hro := readInto_ok ⟨s.data, s.pos + 4 + 4 + (32768 - 8) +
              beVal (List.take 4 (List.drop (s.pos + 4) s.data)) *
                countStored ((cisoMapBytes s).take i)⟩
            (beVal (List.take 4 (List.drop (s.pos + 4) s.data)))
            (by dsimp only at hbound ⊢; omega)
          simp [cisoReadBlock, cisoBlockSize, List.get?_eq_getElem?, hblocks,
            ByteStream.goto, hro, RunResult.toOption]

def c6map : List Nat := 2 :: List.replicate 0x7FF7 0

def c6data : List Nat :=
  [0x4F, 0x53, 0x49, 0x43, 0, 0, 0, 4] ++ c6map ++ [9, 9, 9, 9]

def c6s : ByteStream := ⟨c6data, 0⟩

def c6r : CisoReader := ⟨⟨4, [(0, false)]⟩, ⟨c6data, 32768⟩, 32768⟩

theorem c6ml : c6map.length = 32760 := by
  rw [c6map, List.length_cons, List.length_replicate]

theorem t_hlen : c6data.length = 32772 := by
  rw [c6data, List.length_append, List.length_append, c6ml]
  rfl

theorem t_hmapb : List.take 32760 (List.drop 8 c6data) = c6map := by
  rw [c6data, List.append_assoc,
    List.drop_left' (show ([0x4F, 0x53, 0x49, 0x43, 0, 0, 0, 4] : List Nat).length
      = 8 from rfl),
    List.take_left' c6ml]

theorem c6_mapBytes : cisoMapBytes c6s = c6map := by
  rw [cisoMapBytes]
  dsimp only [c6s]
  rw [c6data, List.append_assoc,
    List.drop_left' (show ([0x4F, 0x53, 0x49, 0x43, 0, 0, 0, 4] : List Nat).length
      = 0 + 8 from rfl),
    List.take_left' c6ml]

theorem c6_filterMap_cons0 (k : Nat) (l : List (Nat × Nat)) :
    List.filterMap (fun p : Nat × Nat => if p.2 ≠ 0 then some (p.1 + 1)
      else Option.none) ((k, 0) :: l) =
    List.filterMap (fun p : Nat × Nat => if p.2 ≠ 0 then some (p.1 + 1)
      else Option.none) l := by
  simp only [List.filterMap_cons]
  norm_num

theorem c6_filterMap_cons2 (k : Nat) (l : List (Nat × Nat)) :
    List.filterMap (fun p : Nat × Nat => if p.2 ≠ 0 then some (p.1 + 1)
      else Option.none) ((k, 2) :: l) =
    (k + 1) :: List.filterMap (fun p : Nat × Nat => if p.2 ≠ 0 then some (p.1 + 1)
      else Option.none) l := by
  simp only [List.filterMap_cons]
  norm_num

theorem c6_enum_zeros : ∀ (n k : Nat), (List.enumFrom k (List.replicate n 0)).filterMap
    (fun p : Nat × Nat => if p.2 ≠ 0 then some (p.1 + 1) else Option.none) = []
  | 0, _ => rfl
  | n + 1, k => by
    rw [List.replicate_succ, List.enumFrom, c6_filterMap_cons0]
    exact c6_enum_zeros n (k + 1)

theorem c6_blockTotal : cisoBlockTotal c6map = some 1 := by
  rw [cisoBlockTotal, c6map, List.enum_cons, c6_filterMap_cons2, c6_enum_zeros]
  rfl

theorem t_mk : cisoMkBlocks c6map 1 4 = [(0, false)] := rfl

theorem readIntoTracked_ok {x : List Nat × ByteStream} {n : Nat} :
    readIntoTracked (Except.ok x) n = Except.ok x := rfl

theorem c6_bind_ok {α β : Type} (a : α) (f : α → Except Error β) :
    (Except.ok a : Except Error α) >>= f = f a := rfl

theorem c6_r1 : ByteStream.readInto ⟨c6data, 0⟩ 4 =
    .ok ([0x4F, 0x53, 0x49, 0x43], ⟨c6data, 4⟩) := by
  rw [ByteStream.readInto, ByteStream.readExact]
  dsimp only
  rw [if_pos (show 0 + 4 ≤ c6data.length by rw [t_hlen]; norm_num)]
  rfl

theorem c6_b1 : ByteStream.bu32 ⟨c6data, 0⟩ = .ok (0x4F534943, ⟨c6data, 4⟩) := by
  rw [ByteStream.bu32, c6_r1, c6_bind_ok]
  rfl

theorem c6_r2 : ByteStream.readInto ⟨c6data, 4⟩ 4 =
    .ok ([0, 0, 0, 4], ⟨c6data, 8⟩) := by
  rw [ByteStream.readInto, ByteStream.readExact]
  dsimp only
  rw [if_pos (show 4 + 4 ≤ c6data.length by rw [t_hlen]; norm_num)]
  rfl

theorem c6_b2 : ByteStream.bu32 ⟨c6data, 4⟩ = .ok (4, ⟨c6data, 8⟩) := by
  rw [ByteStream.bu32, c6_r2, c6_bind_ok]
  rfl

theorem c6_u8 : ByteStream.u8Array ⟨c6data, 8⟩ 32760 =
    .ok (c6map, ⟨c6data, 32768⟩) := by
  rw [ByteStream.u8Array, ByteStream.readInto, ByteStream.readExact]
  dsimp only
  rw [if_pos (show 8 + 32760 ≤ c6data.length by rw [t_hlen]; norm_num)]
  rw [readIntoTracked_ok, t_hmapb]

theorem c6_hdr : cisoHeaderFromBinary ⟨c6data, 0⟩ =
    .ok (⟨4, [(0, false)]⟩, ⟨c6data, 32768⟩) := by
  rw [cisoHeaderFromBinary, c6_b1, c6_bind_ok]
  dsimp only
  rw [c6_b2, c6_bind_ok]
  dsimp only
  rw [if_neg (show ¬((0x4F534943 : Nat) ≠ 0x4F534943) by norm_num)]
  rw [if_neg (show ¬((4 : Nat) = 0 ∨ (0x8000000 : Nat) < 4) by norm_num)]
  rw [c6_u8, c6_bind_ok]
  dsimp only
  rw [c6_blockTotal]
  dsimp only
  rw [t_mk]

theorem c6_new : cisoReaderNew c6s = .ok c6r := by
  rw [cisoReaderNew, c6s, c6_hdr, c6_bind_ok]
  rfl

/-- C6: the spec reads "map byte non-zero means the block is stored", but the
code stores a block exactly when its map byte equals 1 (`*x.1 == 1`,
src/ciso.rs line 84): on `c6s`, whose block 0 has map byte 2 and whose
on-disc data after the header is [9, 9, 9, 9], the parsed block 0 is
not stored and `read_block` returns zeroes, not the stored bytes. -/
theorem c6_counterexample :
    cisoReaderNew c6s = .ok c6r ∧
    (cisoMapBytes c6s).getD 0 0 = 2 ∧
    c6r.header.blocks.get? 0 = some (0, false) ∧
    (cisoReadBlock c6r 0).toOption.map Prod.fst =
      some (List.replicate (cisoBlockSize c6r) 0) ∧
    (c6s.data.drop c6r.dataOffset).take (cisoBlockSize c6r) = [9, 9, 9, 9] ∧
    List.replicate (cisoBlockSize c6r) 0 ≠ [9, 9, 9, 9] := by
  refine ⟨c6_new, rfl, rfl, rfl, ?_, by decide⟩
  show List.take (cisoBlockSize c6r) (List.drop 32768 c6data) = [9, 9, 9, 9]
  rw [c6data,
    List.drop_left' (show (([0x4F, 0x53, 0x49, 0x43, 0, 0, 0, 4] : List Nat) ++
      c6map).length = 32768 by rw [List.length_append, c6ml]; rfl)]
  rfl

theorem c6_witness :
    ∃ bt, cisoBlockTotal (cisoMapBytes c6s) = some bt ∧
      c6r.header.blocks.length = bt ∧
      cisoTotalSize c6r = bt * cisoBlockSize c6r ∧
      c6r.dataOffset = c6s.pos + 0x8000 ∧
      (∀ i, i < bt →
        ((cisoMapBytes c6s).getD i 0 ≠ 1 →
          (cisoReadBlock c6r i).toOption.map Prod.fst =
            some (List.replicate (cisoBlockSize c6r) 0)) ∧
        ((cisoMapBytes c6s).getD i 0 = 1 →
          c6r.header.blocks.get? i = some
            (cisoBlockSize c6r * countStored ((cisoMapBytes c6s).take i), true) ∧
          (c6r.dataOffset + cisoBlockSize c6r * countStored ((cisoMapBytes c6s).take i)
              + cisoBlockSize c6r ≤ c6s.data.length →
            (cisoReadBlock c6r i).toOption.map Prod.fst =
              some ((c6s.data.drop (c6r.dataOffset +
                cisoBlockSize c6r * countStored ((cisoMapBytes c6s).take i))).take
                (cisoBlockSize c6r))))) :=
  c6_ciso_block_semantics c6s c6r c6_new

/-! ## GCM (src/gcm) -/

/-- `gcm::boot::ConsoleType`. -/
inductive ConsoleType where
  | gameCube
deriving DecidableEq

/-- The GCM boot header (`boot.bin`, src/gcm/boot.rs). -/
structure Boot where
  console : ConsoleType
  gameCode : List Nat
  countryCode : Nat
  makerCode : List Nat
  discId : Nat
  version : Nat
  audioStreaming : Nat
  streamingBufferSize : Nat
  gameName : String
  debugMonitorOffset : Nat
  debugMonitorAddress : Nat
  mainExecutableOffset : Nat
  fstOffset : Nat
  fstSize : Nat
  fstMaxSize : Nat
  userPosition : Nat
  userLength : Nat
  unknown0 : Nat
deriving DecidableEq

/-- `Boot::from_binary` (src/gcm/boot.rs lines 76-133): the fixed sequence of
reads followed by the magic check and the console-type match. -/
def bootFromBinary (s : ByteStream) : Except Error (Boot × ByteStream) := do
  let (console, s) ← s.u8
  let (gameCode, s) ← s.u8Array 2
  let (countryCode, s) ← s.u8
  let (makerCode, s) ← s.u8Array 2
  let (discId, s) ← s.u8
  let (version, s) ← s.u8
  let (audioStreaming, s) ← s.u8
  let (streamingBufferSize, s) ← s.u8
  let (_reserved0, s) ← s.u8Array 0x12
  let (magic, s) ← s.bu32
  let (gameName, s) ← s.strFixedAscii 0x3E0
  let (debugMonitorOffset, s) ← s.bu32
  let (debugMonitorAddress, s) ← s.bu32
  let (_reserved1, s) ← s.u8Array 0x18
  let (mainExecutableOffset, s) ← s.bu32
  let (fstOffset, s) ← s.bu32
  let (fstSize, s) ← s.bu32
  let (fstMaxSize, s) ← s.bu32
  let (userPosition, s) ← s.bu32
  let (userLength, s) ← s.bu32
  let (unknown0, s) ← s.bu32
  let (_reserved2, s) ← s.u8Array 0x4
  if magic ≠ 0xC2339F3D then
    .error (.parse (.invalidHeader "invalid magic"))
  else if console ≠ 0x47 then
    .error (.parse (.invalidHeader "invalid console type"))
  else
    .ok (⟨.gameCube, gameCode, countryCode, makerCode, discId, version,
      audioStreaming, streamingBufferSize, gameName, debugMonitorOffset,
      debugMonitorAddress, mainExecutableOffset, fstOffset, fstSize,
      fstMaxSize, userPosition, userLength, unknown0⟩, s)

/-- The GCM boot information (`bi2.bin`): the non-zero options keyed by their
word index (the `Bi2Options::from` keying is index-faithful). -/
structure Bi2 where
  options : List (Nat × Nat)
deriving DecidableEq

/-- `Bi2::from_binary` (src/gcm/bi2.rs lines 115-125): one 0x800-word
big-endian read, keeping the non-zero words. -/
def bi2FromBinary (s : ByteStream) : Except Error (Bi2 × ByteStream) := do
  let (words, s) ← s.bu32Array (0x2000 / 4)
  .ok (⟨words.enum.filter (fun x => x.2 != 0)⟩, s)

/-- The GCM apploader (`apploader.img`). -/
structure Apploader where
  date : String
  entryPoint : Nat
  size : Nat
  trailerSize : Nat
  unknown : Nat
  data : List Nat
deriving DecidableEq

/-- `Apploader::from_binary` (src/gcm/apploader.rs lines 32-49): header reads
followed by one data read of `size + trailer_size` (u32 addition). -/
def apploaderFromBinary (s : ByteStream) : Except Error (Apploader × ByteStream) := do
  let (date, s) ← s.strFixedAscii 0x10
  let (entryPoint, s) ← s.bu32
  let (size, s) ← s.bu32
  let (trailerSize, s) ← s.bu32
  let (unknown, s) ← s.bu32
  let (data, s) ← s.readAsVec ((size + trailerSize) % 4294967296)
  .ok (⟨date, entryPoint, size, trailerSize, unknown, data⟩, s)

/-- The GCM main executable (the raw DOL image bytes). -/
structure Executable where
  data : List Nat
deriving DecidableEq

/-- `Executable::from_binary` (src/gcm/executable.rs lines 16-45): read the
DOL offset/size arrays, size the executable as the maximum `offset + size`
(u32 addition), rewind to the base and read that many bytes. -/
def executableFromBinary (s : ByteStream) : Except Error (Executable × ByteStream) := do
  let base := s.pos
  let (textOffsets, s) ← s.bu32Array 7
  let (dataOffsets, s) ← s.bu32Array 11
  let (_t, s) ← s.bu32Array 7
  let (_d, s) ← s.bu32Array 11
  let (textSizes, s) ← s.bu32Array 7
  let (dataSizes, s) ← s.bu32Array 11
  let sums := List.zipWith (fun o z => (o + z) % 4294967296) textOffsets textSizes ++
    List.zipWith (fun o z => (o + z) % 4294967296) dataOffsets dataSizes
  match sums.max? with
  | Option.none => .error (.parse (.invalidHeader "unable to determine executable size"))
  | some totalSize => do
    let (data, s) ← (s.goto base).readAsVec totalSize
    .ok (⟨data⟩, s)

/-- An `fst::Entry`. -/
inductive FstEntry where
  | root
  | file (name : String) (index offset size : Nat)
  | directory (name : String) (parent beginIdx endIdx : Nat)
deriving DecidableEq

/-- An `fst::RawEntry`. -/
inductive RawEntry where
  | file (name offset size : Nat)
  | directory (name parent endIdx : Nat)
deriving DecidableEq

/-- `RawEntry::new` (src/gcm/fst.rs lines 51-71): three 32-bit reads; the top
byte of the first word is the flag, the rest the name offset. -/
def rawEntryNew (s : ByteStream) : Except Error (RawEntry × ByteStream) := do
  let (flagOrNameOffset, s) ← s.bu32
  let (dataOffsetOrParent, s) ← s.bu32
  let (dataLengthOrEnd, s) ← s.bu32
  let flag := flagOrNameOffset / 0x1000000
  let nameOffset := flagOrNameOffset % 0x1000000
  if flag % 2 = 0 then
    .ok (.file nameOffset dataOffsetOrParent dataLengthOrEnd, s)
  else
    .ok (.directory nameOffset dataOffsetOrParent dataLengthOrEnd, s)

/-- The `(0..entry_count).map(|_| RawEntry::new(reader)).collect::<Result<_>>()`
loop of `Fst::deserialize`. -/
def rawEntriesRead : Nat → ByteStream → Except Error (List RawEntry × ByteStream)
  | 0, s => .ok ([], s)
  | n + 1, s => do
    let (e, s) ← rawEntryNew s
    let (rest, s) ← rawEntriesRead n s
    .ok (e :: rest, s)

/-- The entry-construction loop of `Fst::deserialize` (src/gcm/fst.rs lines
110-133): entry 0 is the root; otherwise the name is ASCII-decoded from the
string table at the raw name offset (a Rust slice `&table[name..]`, which
panics when `name` exceeds the table length). -/
def fstBuildEntries (stringTable : List Nat) :
    List RawEntry → Nat → RunResult (List FstEntry)
  | [], _ => .ok []
  | e :: rest, i =>
    if i = 0 then
      match fstBuildEntries stringTable rest (i + 1) with
      | .ok es => .ok (.root :: es)
      | .err er => .err er
      | .panicked => .panicked
    else
      match e with
      | .file name offset size =>
        if stringTable.length < name then .panicked
        else
          match asciiFirst (stringTable.drop name) with
          | .error er => .err er
          | .ok nm =>
            match fstBuildEntries stringTable rest (i + 1) with
            | .ok es => .ok (.file nm i offset size :: es)
            | .err er => .err er
            | .panicked => .panicked
      | .directory name parent endIdx =>
        if stringTable.length < name then .panicked
        else
          match asciiFirst (stringTable.drop name) with
          | .error er => .err er
          | .ok nm =>
            match fstBuildEntries stringTable rest (i + 1) with
            | .ok es => .ok (.directory nm parent (i + 1) endIdx :: es)
            | .err er => .err er
            | .panicked => .panicked

/-- The GCM file string table. -/
structure Fst where
  entries : List FstEntry
deriving DecidableEq

/-- `Fst::deserialize` (src/gcm/fst.rs lines 86-136): peek the root entry
count, bound it by 0x4000, rewind, read the raw entries, read the string
table (`fst_size - 12 * entry_count` bytes, a wrapping usize subtraction)
and build the entry list. -/
def fstDeserialize (s : ByteStream) (fstSize : Nat) : RunResult (Fst × ByteStream) :=
  let base := s.pos
  match (do
      let (_, s) ← s.bu32
      let (_, s) ← s.bu32
      let (rootCount, s) ← s.bu32
      Except.ok (rootCount, s) :
      Except Error (Nat × ByteStream)) with
  | .error e => .err e
  | .ok (rootCount, s) =>
    if 0x4000 < rootCount then
      .err (.parse (.invalidRange "entry count limit (max 16384)"))
    else
      match rawEntriesRead rootCount (s.goto base) with
      | .error e => .err e
      | .ok (tempEntries, s) =>
        let nameTableSize :=
          (fstSize + 18446744073709551616 - 12 * rootCount) % 18446744073709551616
        match s.readAsVec nameTableSize with
        | .error e => .err e
        | .ok (stringTable, s) =>
          match fstBuildEntries stringTable tempEntries 0 with
          | .panicked => .panicked
          | .err e => .err e
          | .ok entries => .ok (⟨entries⟩, s)

/-- The parsed `.gcm` object. -/
structure Gcm where
  boot : Boot
  bi2 : Bi2
  apploader : Apploader
  executable : Executable
  fst : Fst
deriving DecidableEq

/-- `Gcm::from_binary` (src/gcm/mod.rs lines 64-100): the five stages with the
three `ensure!` position checks and the two absolute seeks. -/
def gcmFromBinary (s : ByteStream) : RunResult (Gcm × ByteStream) :=
  let position := s.pos
  match bootFromBinary s with
  | .error e => .err e
  | .ok (boot, s) =>
    if position + 0x440 ≠ s.pos then .err (.parse (.invalidData "invalid boot"))
    else
      match bi2FromBinary s with
      | .error e => .err e
      | .ok (bi2, s) =>
        if position + 0x2440 ≠ s.pos then .err (.parse (.invalidData "invalid bi2"))
        else
          match apploaderFromBinary s with
          | .error e => .err e
          | .ok (apploader, s) =>
            if position + 0x2460 + apploader.data.length ≠ s.pos then
              .err (.parse (.invalidData "invalid apploader"))
            else
              match executableFromBinary (s.goto (position + boot.mainExecutableOffset)) with
              | .error e => .err e
              | .ok (executable, s) =>
                match fstDeserialize (s.goto (position + boot.fstOffset)) boot.fstSize with
                | .panicked => .panicked
                | .err e => .err e
                | .ok (fst, s) => .ok (⟨boot, bi2, apploader, executable, fst⟩, s)

theorem readAsVec_length (s s' : ByteStream) (n : Nat) (bs : List Nat)
    (h : s.readAsVec n = .ok (bs, s')) : bs.length = n := by
  unfold ByteStream.readAsVec ByteStream.readInto ByteStream.readExact
    readIntoTracked at h
  by_cases hb : s.pos + n ≤ s.data.length
  · simp only [hb, if_true] at h
    simp only [Except.ok.injEq, Prod.mk.injEq] at h
    obtain ⟨h1, h2⟩ := h
    subst h1
    simp only [List.length_take, List.length_drop]
    omega
  · simp [hb] at h

/-- C7 amended: the position invariant `position - start = 0x2460 +
apploader.size + apploader.trailer_size` holds at the post-apploader
checkpoint (the `ensure!` after `Apploader::from_binary`), not at the return
of `Gcm::from_binary`: whenever `Gcm::from_binary` succeeds, the three header
stages succeed at positions start + 0x440, start + 0x2440 and
start + 0x2460 + |apploader data|, with |apploader data| the wrapped u32 sum
`(size + trailer_size) % 2^32`; the stream then moves on to the executable
and the FST, so the final position is unrelated to the apploader sizes. -/
theorem c7_position_invariant (s : ByteStream) (g : Gcm) (s' : ByteStream)
    (h : gcmFromBinary s = .ok (g, s')) :
    ∃ sB sC sA,
      bootFromBinary s = .ok (g.boot, sB) ∧ sB.pos = s.pos + 0x440 ∧
      bi2FromBinary sB = .ok (g.bi2, sC) ∧ sC.pos = s.pos + 0x2440 ∧
      apploaderFromBinary sC = .ok (g.apploader, sA) ∧
      sA.pos = s.pos + 0x2460 + g.apploader.data.length ∧
      g.apploader.data.length =
        (g.apploader.size + g.apploader.trailerSize) % 4294967296 := by
  unfold gcmFromBinary at h
  dsimp only at h
  cases hB : bootFromBinary s with
  | error e => rw [hB] at h; cases h
  | ok vB =>
    obtain ⟨boot, sB⟩ := vB
    rw [hB] at h
    dsimp only at h
    by_cases hgB : s.pos + 0x440 ≠ sB.pos
    · rw [if_pos hgB] at h; cases h
    rw [if_neg hgB] at h
    cases hC : bi2FromBinary sB with
    | error e => rw [hC] at h; cases h
    | ok vC =>
      obtain ⟨bi2, sC⟩ := vC
      rw [hC] at h
      dsimp only at h
      by_cases hgC : s.pos + 0x2440 ≠ sC.pos
      · rw [if_pos hgC] at h; cases h
      rw [if_neg hgC] at h
      cases hA : apploaderFromBinary sC with
      | error e => rw [hA] at h; cases h
      | ok vA =>
        obtain ⟨app, sA⟩ := vA
        rw [hA] at h
        dsimp only at h
        by_cases hgA : s.pos + 0x2460 + app.data.length ≠ sA.pos
        · rw [if_pos hgA] at h; cases h
        rw [if_neg hgA] at h
        cases hE : executableFromBinary (sA.goto (s.pos + boot.mainExecutableOffset)) with
        | error e => rw [hE] at h; cases h
        | ok vE =>
          obtain ⟨exe, sE⟩ := vE
          rw [hE] at h
          dsimp only at h
          cases hF : fstDeserialize (sE.goto (s.pos + boot.fstOffset)) boot.fstSize with
          | panicked => rw [hF] at h; cases h
          | err e => rw [hF] at h; cases h
          | ok vF =>
            obtain ⟨fst, sF⟩ := vF
            rw [hF] at h
            dsimp only at h
            obtain ⟨rfl, rfl⟩ : (⟨boot, bi2, app, exe, fst⟩ : Gcm) = g ∧ sF = s' := by
              cases h; exact ⟨rfl, rfl⟩
            have hlen : app.data.length = (app.size + app.trailerSize) % 4294967296 := by
              unfold apploaderFromBinary at hA
              simp only [bind, Except.bind] at hA
              cases h1 : sC.strFixedAscii 0x10 with
              | error e => rw [h1] at hA; cases hA
              | ok v1 =>
                obtain ⟨date, t1⟩ := v1
                rw [h1] at hA
                dsimp only at hA
                cases h2 : t1.bu32 with
                | error e => rw [h2] at hA; cases hA
                | ok v2 =>
                  obtain ⟨ep, t2⟩ := v2
                  rw [h2] at hA
                  dsimp only at hA
                  cases h3 : t2.bu32 with
                  | error e => rw [h3] at hA; cases hA
                  | ok v3 =>
                    obtain ⟨sz, t3⟩ := v3
                    rw [h3] at hA
                    dsimp only at hA
                    cases h4 : t3.bu32 with
                    | error e => rw [h4] at hA; cases hA
                    | ok v4 =>
                      obtain ⟨tr, t4⟩ := v4
                      rw [h4] at hA
                      dsimp only at hA
                      cases h5 : t4.bu32 with
                      | error e => rw [h5] at hA; cases hA
                      | ok v5 =>
                        obtain ⟨un, t5⟩ := v5
                        rw [h5] at hA
                        dsimp only at hA
                        cases h6 : t5.readAsVec ((sz + tr) % 4294967296) with
                        | error e => rw [h6] at hA; cases hA
                        | ok v6 =>
                          obtain ⟨dat, t6⟩ := v6
                          rw [h6] at hA
                          dsimp only at hA
                          obtain rfl : (⟨date, ep, sz, tr, un, dat⟩ : Apploader) = app := by
                            cases hA; rfl
                          exact readAsVec_length t5 t6 _ dat h6
            dsimp only
            exact ⟨sB, sC, sA, rfl, by omega, hC, by omega, hA, by omega, hlen⟩

theorem readInto_eval (d seg rest : List Nat) (p n : Nat)
    (hdrop : List.drop p d = seg ++ rest) (hn : seg.length = n)
    (hlen : p + n ≤ d.length) :
    ByteStream.readInto ⟨d, p⟩ n = .ok (seg, ⟨d, p + n⟩) := by
  rw [readInto_ok ⟨d, p⟩ n hlen]
  dsimp only
  rw [hdrop, List.take_left' hn]

theorem u8_eval (d : List Nat) (p b : Nat) (rest : List Nat)
    (hdrop : List.drop p d = b :: rest) (hlen : p + 1 ≤ d.length) :
    ByteStream.u8 ⟨d, p⟩ = .ok (b, ⟨d, p + 1⟩) := by
  rw [ByteStream.u8,
    readInto_eval d [b] rest p 1 (by rw [hdrop]; rfl) rfl hlen, c6_bind_ok]
  rfl

theorem bu32_eval (d : List Nat) (p b0 b1 b2 b3 : Nat) (rest : List Nat)
    (hdrop : List.drop p d = b0 :: b1 :: b2 :: b3 :: rest)
    (hlen : p + 4 ≤ d.length) :
    ByteStream.bu32 ⟨d, p⟩ = .ok (beVal [b0, b1, b2, b3], ⟨d, p + 4⟩) := by
  rw [ByteStream.bu32,
    readInto_eval d [b0, b1, b2, b3] rest p 4 (by rw [hdrop]; rfl) rfl hlen,
    c6_bind_ok]

theorem bu32_zeros_eval (d : List Nat) (p : Nat) (rest : List Nat)
    (hdrop : List.drop p d = 0 :: 0 :: 0 :: 0 :: rest)
    (hlen : p + 4 ≤ d.length) :
    ByteStream.bu32 ⟨d, p⟩ = .ok (0, ⟨d, p + 4⟩) :=
  bu32_eval d p 0 0 0 0 rest hdrop hlen

theorem u8Array_eval (d seg rest : List Nat) (p n : Nat)
    (hdrop : List.drop p d = seg ++ rest) (hn : seg.length = n)
    (hlen : p + n ≤ d.length) :
    ByteStream.u8Array ⟨d, p⟩ n = .ok (seg, ⟨d, p + n⟩) := by
  rw [ByteStream.u8Array]
  exact readInto_eval d seg rest p n hdrop hn hlen

theorem asciiFirst_zeros : ∀ n : Nat, asciiFirst (List.replicate n 0) = .ok ""
  | 0 => rfl
  | n + 1 => by rw [List.replicate_succ]; rfl

theorem strFixedAscii_zeros_eval (d : List Nat) (p n : Nat) (rest : List Nat)
    (hdrop : List.drop p d = List.replicate n 0 ++ rest)
    (hlen : p + n ≤ d.length) :
    ByteStream.strFixedAscii ⟨d, p⟩ n = .ok ("", ⟨d, p + n⟩) := by
  rw [ByteStream.strFixedAscii,
    readInto_eval d (List.replicate n 0) rest p n hdrop
      (by rw [List.length_replicate]) hlen,
    c6_bind_ok]
  dsimp only
  rw [asciiFirst_zeros, c6_bind_ok]

theorem beWords_cons4 (b0 b1 b2 b3 : Nat) (l : List Nat) :
    beWords (b0 :: b1 :: b2 :: b3 :: l) = beVal [b0, b1, b2, b3] :: beWords l := rfl

theorem beWords_zeros : ∀ k : Nat, beWords (List.replicate (4 * k) 0) = List.replicate k 0
  | 0 => rfl
  | k + 1 => by
    rw [show 4 * (k + 1) = 4 * k + 4 by ring,
      show (4 * k + 4 : Nat) = (4 * k + 3) + 1 from rfl, List.replicate_succ,
      show (4 * k + 3 : Nat) = (4 * k + 2) + 1 from rfl, List.replicate_succ,
      show (4 * k + 2 : Nat) = (4 * k + 1) + 1 from rfl, List.replicate_succ,
      show (4 * k + 1 : Nat) = (4 * k) + 1 from rfl, List.replicate_succ,
      beWords_cons4, beWords_zeros k, List.replicate_succ]
    rfl

theorem bu32Array_zeros_eval (d : List Nat) (p k : Nat) (rest : List Nat)
    (hdrop : List.drop p d = List.replicate (4 * k) 0 ++ rest)
    (hlen : p + 4 * k ≤ d.length) :
    ByteStream.bu32Array ⟨d, p⟩ k = .ok (List.replicate k 0, ⟨d, p + 4 * k⟩) := by
  rw [ByteStream.bu32Array,
    readInto_eval d (List.replicate (4 * k) 0) rest p (4 * k) hdrop
      (by rw [List.length_replicate]) hlen,
    c6_bind_ok]
  dsimp only
  rw [beWords_zeros]

theorem readAsVec_zero_eval (d : List Nat) (p : Nat) (hlen : p ≤ d.length) :
    ByteStream.readAsVec ⟨d, p⟩ 0 = .ok ([], ⟨d, p⟩) := by
  rw [ByteStream.readAsVec,
    readInto_eval d [] (List.drop p d) p 0 (by rw [List.nil_append]) rfl
      (by omega)]
  rfl

theorem drop_seg_peel (d seg rest : List Nat) (p n : Nat)
    (h : List.drop p d = seg ++ rest) (hn : seg.length = n) :
    List.drop (p + n) d = rest := by
  rw [← List.drop_drop, h, List.drop_left' hn]

theorem drop_zeros_peel (d rest : List Nat) (p m n : Nat)
    (h : List.drop p d = List.replicate m 0 ++ rest) (hn : n ≤ m) :
    List.drop (p + n) d = List.replicate (m - n) 0 ++ rest := by
  rw [← List.drop_drop, h,
    show List.replicate m (0 : Nat) ++ rest =
      List.replicate n 0 ++ (List.replicate (m - n) 0 ++ rest) by
        rw [← List.append_assoc, ← List.replicate_add, Nat.add_sub_cancel' hn],
    List.drop_left' (by rw [List.length_replicate])]

theorem drop_zeros_view (d rest : List Nat) (p m n : Nat)
    (h : List.drop p d = List.replicate m 0 ++ rest) (hn : n ≤ m) :
    List.drop p d = List.replicate n 0 ++ (List.replicate (m - n) 0 ++ rest) := by
  rw [h, ← List.append_assoc, ← List.replicate_add, Nat.add_sub_cancel' hn]

theorem drop_zeros_cons (d rest : List Nat) (p m : Nat)
    (h : List.drop p d = List.replicate m 0 ++ rest) (hm : 1 ≤ m) :
    List.drop p d = 0 :: (List.replicate (m - 1) 0 ++ rest) := by
  rw [drop_zeros_view d rest p m 1 h hm]
  rfl

theorem drop_zeros_cons4 (d rest : List Nat) (p m : Nat)
    (h : List.drop p d = List.replicate m 0 ++ rest) (hm : 4 ≤ m) :
    List.drop p d = 0 :: 0 :: 0 :: 0 :: (List.replicate (m - 4) 0 ++ rest) := by
  rw [drop_zeros_view d rest p m 4 h hm]
  rfl

theorem enum_filter_zeros : ∀ (n k : Nat),
    (List.enumFrom k (List.replicate n 0)).filter (fun x => x.2 != 0) = []
  | 0, _ => rfl
  | n + 1, k => by
    simp only [List.replicate_succ, List.enumFrom, List.filter_cons]
    norm_num [enum_filter_zeros n (k + 1)]

theorem bi2_zeros_eval (d : List Nat) (p : Nat) (rest : List Nat)
    (hdrop : List.drop p d = List.replicate 8192 0 ++ rest)
    (hlen : p + 8192 ≤ d.length) :
    bi2FromBinary ⟨d, p⟩ = .ok (⟨[]⟩, ⟨d, p + 8192⟩) := by
  rw [bi2FromBinary, show (0x2000 / 4 : Nat) = 2048 by norm_num,
    bu32Array_zeros_eval d p 2048 rest (by rw [show (4 * 2048 : Nat) = 8192 by norm_num]; exact hdrop)
      (by rw [show (4 * 2048 : Nat) = 8192 by norm_num]; exact hlen),
    c6_bind_ok]
  dsimp only
  rw [show List.enum (List.replicate 2048 (0 : Nat)) =
      List.enumFrom 0 (List.replicate 2048 0) from rfl,
    enum_filter_zeros]

theorem apploader_zeros_eval (d : List Nat) (p : Nat) (rest : List Nat)
    (hdrop : List.drop p d = List.replicate 32 0 ++ rest)
    (hlen : p + 32 ≤ d.length) :
    apploaderFromBinary ⟨d, p⟩ = .ok (⟨"", 0, 0, 0, 0, []⟩, ⟨d, p + 32⟩) := by
  have hA16 := drop_zeros_peel d rest p 32 16 hdrop (by norm_num)
  have hA20 := drop_zeros_peel d rest p 32 20 hdrop (by norm_num)
  have hA24 := drop_zeros_peel d rest p 32 24 hdrop (by norm_num)
  have hA28 := drop_zeros_peel d rest p 32 28 hdrop (by norm_num)
  rw [apploaderFromBinary,
    strFixedAscii_zeros_eval d p 16 _ (drop_zeros_view d rest p 32 16 hdrop (by norm_num))
      (by omega),
    c6_bind_ok]
  dsimp only
  rw [bu32_zeros_eval d (p + 16) _
      (drop_zeros_cons4 d rest (p + 16) 16 hA16 (by norm_num)) (by omega),
    c6_bind_ok]
  dsimp only
  rw [bu32_zeros_eval d (p + 16 + 4) _
      (drop_zeros_cons4 d rest (p + 16 + 4) 12 hA20 (by norm_num)) (by omega),
    c6_bind_ok]
  dsimp only
  rw [bu32_zeros_eval d (p + 16 + 4 + 4) _
      (drop_zeros_cons4 d rest (p + 16 + 4 + 4) 8 hA24 (by norm_num)) (by omega),
    c6_bind_ok]
  dsimp only
  rw [bu32_zeros_eval d (p + 16 + 4 + 4 + 4) _
      (drop_zeros_cons4 d rest (p + 16 + 4 + 4 + 4) 4 hA28 (by norm_num)) (by omega),
    c6_bind_ok]
  dsimp only
  rw [show ((0 + 0 : Nat) % 4294967296) = 0 from rfl,
    readAsVec_zero_eval d (p + 16 + 4 + 4 + 4 + 4) (by omega),
    c6_bind_ok]

theorem executable_zeros_eval (d : List Nat) (p : Nat) (rest : List Nat)
    (hdrop : List.drop p d = List.replicate 216 0 ++ rest)
    (hlen : p + 216 ≤ d.length) :
    executableFromBinary ⟨d, p⟩ = .ok (⟨[]⟩, ⟨d, p⟩) := by
  have hE28 := drop_zeros_peel d rest p 216 28 hdrop (by norm_num)
  have hE72 := drop_zeros_peel d rest p 216 72 hdrop (by norm_num)
  have hE100 := drop_zeros_peel d rest p 216 100 hdrop (by norm_num)
  have hE144 := drop_zeros_peel d rest p 216 144 hdrop (by norm_num)
  have hE172 := drop_zeros_peel d rest p 216 172 hdrop (by norm_num)
  rw [executableFromBinary]
  dsimp only
  rw [bu32Array_zeros_eval d p 7 _
      (drop_zeros_view d rest p 216 28 hdrop (by norm_num)) (by omega),
    c6_bind_ok]
  dsimp only
  rw [bu32Array_zeros_eval d (p + 4 * 7) 11 _
      (drop_zeros_view d rest (p + 4 * 7) 188 44 hE28 (by norm_num)) (by omega),
    c6_bind_ok]
  dsimp only
  rw [bu32Array_zeros_eval d (p + 4 * 7 + 4 * 11) 7 _
      (drop_zeros_view d rest (p + 4 * 7 + 4 * 11) 144 28 hE72 (by norm_num))
      (by omega),
    c6_bind_ok]
  dsimp only
  rw [bu32Array_zeros_eval d (p + 4 * 7 + 4 * 11 + 4 * 7) 11 _
      (drop_zeros_view d rest (p + 4 * 7 + 4 * 11 + 4 * 7) 116 44 hE100
        (by norm_num))
      (by omega),
    c6_bind_ok]
  dsimp only
  rw [bu32Array_zeros_eval d (p + 4 * 7 + 4 * 11 + 4 * 7 + 4 * 11) 7 _
      (drop_zeros_view d rest (p + 4 * 7 + 4 * 11 + 4 * 7 + 4 * 11) 72 28 hE144
        (by norm_num))
      (by omega),
    c6_bind_ok]
  dsimp only
  rw [bu32Array_zeros_eval d (p + 4 * 7 + 4 * 11 + 4 * 7 + 4 * 11 + 4 * 7) 11 _
      (drop_zeros_view d rest (p + 4 * 7 + 4 * 11 + 4 * 7 + 4 * 11 + 4 * 7) 44 44
        hE172 (by norm_num))
      (by omega),
    c6_bind_ok]
  dsimp only
  have hmax : (List.zipWith (fun o z => (o + z) % 4294967296)
        (List.replicate 7 (0 : Nat)) (List.replicate 7 0) ++
      List.zipWith (fun o z => (o + z) % 4294967296)
        (List.replicate 11 (0 : Nat)) (List.replicate 11 0)).max? = some 0 := rfl
  rw [hmax]
  dsimp only [ByteStream.goto]
  rw [readAsVec_zero_eval d p (by omega), c6_bind_ok]

/-- A concrete GCM: valid boot (console GameCube, magic, main executable at
0x2460, FST at 0x2560 with size 12), all-zero bi2 and apploader (data size 0),
an all-zero DOL header at 0x2460, and a one-entry FST (the root). -/
def c7data : List Nat :=
  [0x47] ++ (List.replicate 27 0 ++ ([0xC2, 0x33, 0x9F, 0x3D] ++ (List.replicate 1024 0 ++ ([0x00, 0x00, 0x24, 0x60] ++ ([0x00, 0x00, 0x25, 0x60] ++ ([0x00, 0x00, 0x00, 0x0C] ++ (List.replicate 8500 0 ++ ([0x01, 0x00, 0x00, 0x00] ++ ([0x00, 0x00, 0x00, 0x00] ++ ([0x00, 0x00, 0x00, 0x01]))))))))))

def c7s : ByteStream := ⟨c7data, 0⟩

/-- The boot header parsed from `c7data`. -/
def c7boot : Boot := ⟨.gameCube, List.replicate 2 0, 0, List.replicate 2 0,
  0, 0, 0, 0, "", 0, 0, 0x2460, 0x2560, 12, 0, 0, 0, 0⟩

/-- The apploader parsed from `c7data`: sizes 0, no data. -/
def c7app : Apploader := ⟨"", 0, 0, 0, 0, []⟩

/-- The GCM parsed from `c7data`. -/
def c7gcm : Gcm := ⟨c7boot, ⟨[]⟩, c7app, ⟨[]⟩, ⟨[.root]⟩⟩

theorem c7len : c7data.length = 9580 := by
  simp only [c7data, List.length_append, List.length_replicate, List.length_cons,
    List.length_nil]

theorem c7d0 : List.drop 0 c7data = [0x47] ++ (List.replicate 27 0 ++ ([0xC2, 0x33, 0x9F, 0x3D] ++ (List.replicate 1024 0 ++ ([0x00, 0x00, 0x24, 0x60] ++ ([0x00, 0x00, 0x25, 0x60] ++ ([0x00, 0x00, 0x00, 0x0C] ++ (List.replicate 8500 0 ++ ([0x01, 0x00, 0x00, 0x00] ++ ([0x00, 0x00, 0x00, 0x00] ++ ([0x00, 0x00, 0x00, 0x01])))))))))) := by
  rw [List.drop_zero, c7data]

theorem c7d1 : List.drop 1 c7data = List.replicate 27 0 ++ ([0xC2, 0x33, 0x9F, 0x3D] ++ (List.replicate 1024 0 ++ ([0x00, 0x00, 0x24, 0x60] ++ ([0x00, 0x00, 0x25, 0x60] ++ ([0x00, 0x00, 0x00, 0x0C] ++ (List.replicate 8500 0 ++ ([0x01, 0x00, 0x00, 0x00] ++ ([0x00, 0x00, 0x00, 0x00] ++ ([0x00, 0x00, 0x00, 0x01]))))))))) :=
  drop_seg_peel c7data ([0x47]) _ 0 1 c7d0 rfl

theorem c7d28 : List.drop 28 c7data = [0xC2, 0x33, 0x9F, 0x3D] ++ (List.replicate 1024 0 ++ ([0x00, 0x00, 0x24, 0x60] ++ ([0x00, 0x00, 0x25, 0x60] ++ ([0x00, 0x00, 0x00, 0x0C] ++ (List.replicate 8500 0 ++ ([0x01, 0x00, 0x00, 0x00] ++ ([0x00, 0x00, 0x00, 0x00] ++ ([0x00, 0x00, 0x00, 0x01])))))))) :=
  drop_seg_peel c7data (List.replicate 27 0) _ 1 27 c7d1 (by rw [List.length_replicate])

theorem c7d32 : List.drop 32 c7data = List.replicate 1024 0 ++ ([0x00, 0x00, 0x24, 0x60] ++ ([0x00, 0x00, 0x25, 0x60] ++ ([0x00, 0x00, 0x00, 0x0C] ++ (List.replicate 8500 0 ++ ([0x01, 0x00, 0x00, 0x00] ++ ([0x00, 0x00, 0x00, 0x00] ++ ([0x00, 0x00, 0x00, 0x01]))))))) :=
  drop_seg_peel c7data ([0xC2, 0x33, 0x9F, 0x3D]) _ 28 4 c7d28 rfl

theorem c7d1056 : List.drop 1056 c7data = [0x00, 0x00, 0x24, 0x60] ++ ([0x00, 0x00, 0x25, 0x60] ++ ([0x00, 0x00, 0x00, 0x0C] ++ (List.replicate 8500 0 ++ ([0x01, 0x00, 0x00, 0x00] ++ ([0x00, 0x00, 0x00, 0x00] ++ ([0x00, 0x00, 0x00, 0x01])))))) :=
  drop_seg_peel c7data (List.replicate 1024 0) _ 32 1024 c7d32 (by rw [List.length_replicate])

theorem c7d1060 : List.drop 1060 c7data = [0x00, 0x00, 0x25, 0x60] ++ ([0x00, 0x00, 0x00, 0x0C] ++ (List.replicate 8500 0 ++ ([0x01, 0x00, 0x00, 0x00] ++ ([0x00, 0x00, 0x00, 0x00] ++ ([0x00, 0x00, 0x00, 0x01]))))) :=
  drop_seg_peel c7data ([0x00, 0x00, 0x24, 0x60]) _ 1056 4 c7d1056 rfl

theorem c7d1064 : List.drop 1064 c7data = [0x00, 0x00, 0x00, 0x0C] ++ (List.replicate 8500 0 ++ ([0x01, 0x00, 0x00, 0x00] ++ ([0x00, 0x00, 0x00, 0x00] ++ ([0x00, 0x00, 0x00, 0x01])))) :=
  drop_seg_peel c7data ([0x00, 0x00, 0x25, 0x60]) _ 1060 4 c7d1060 rfl

theorem c7d1068 : List.drop 1068 c7data = List.replicate 8500 0 ++ ([0x01, 0x00, 0x00, 0x00] ++ ([0x00, 0x00, 0x00, 0x00] ++ ([0x00, 0x00, 0x00, 0x01]))) :=
  drop_seg_peel c7data ([0x00, 0x00, 0x00, 0x0C]) _ 1064 4 c7d1064 rfl

theorem c7d9568 : List.drop 9568 c7data = [0x01, 0x00, 0x00, 0x00] ++ ([0x00, 0x00, 0x00, 0x00] ++ ([0x00, 0x00, 0x00, 0x01])) :=
  drop_seg_peel c7data (List.replicate 8500 0) _ 1068 8500 c7d1068 (by rw [List.length_replicate])

theorem c7d9572 : List.drop 9572 c7data = [0x00, 0x00, 0x00, 0x00] ++ ([0x00, 0x00, 0x00, 0x01]) :=
  drop_seg_peel c7data ([0x01, 0x00, 0x00, 0x00]) _ 9568 4 c7d9568 rfl

theorem c7d9576 : List.drop 9576 c7data = [0x00, 0x00, 0x00, 0x01] :=
  drop_seg_peel c7data ([0x00, 0x00, 0x00, 0x00]) _ 9572 4 c7d9572 rfl

theorem c7z3 : List.drop 3 c7data = List.replicate 25 0 ++ ([0xC2, 0x33, 0x9F, 0x3D] ++ (List.replicate 1024 0 ++ ([0x00, 0x00, 0x24, 0x60] ++ ([0x00, 0x00, 0x25, 0x60] ++ ([0x00, 0x00, 0x00, 0x0C] ++ (List.replicate 8500 0 ++ ([0x01, 0x00, 0x00, 0x00] ++ ([0x00, 0x00, 0x00, 0x00] ++ ([0x00, 0x00, 0x00, 0x01]))))))))) :=
  drop_zeros_peel c7data _ 1 27 2 c7d1 (by norm_num)

theorem c7z4 : List.drop 4 c7data = List.replicate 24 0 ++ ([0xC2, 0x33, 0x9F, 0x3D] ++ (List.replicate 1024 0 ++ ([0x00, 0x00, 0x24, 0x60] ++ ([0x00, 0x00, 0x25, 0x60] ++ ([0x00, 0x00, 0x00, 0x0C] ++ (List.replicate 8500 0 ++ ([0x01, 0x00, 0x00, 0x00] ++ ([0x00, 0x00, 0x00, 0x00] ++ ([0x00, 0x00, 0x00, 0x01]))))))))) :=
  drop_zeros_peel c7data _ 1 27 3 c7d1 (by norm_num)

theorem c7z6 : List.drop 6 c7data = List.replicate 22 0 ++ ([0xC2, 0x33, 0x9F, 0x3D] ++ (List.replicate 1024 0 ++ ([0x00, 0x00, 0x24, 0x60] ++ ([0x00, 0x00, 0x25, 0x60] ++ ([0x00, 0x00, 0x00, 0x0C] ++ (List.replicate 8500 0 ++ ([0x01, 0x00, 0x00, 0x00] ++ ([0x00, 0x00, 0x00, 0x00] ++ ([0x00, 0x00, 0x00, 0x01]))))))))) :=
  drop_zeros_peel c7data _ 1 27 5 c7d1 (by norm_num)

theorem c7z7 : List.drop 7 c7data = List.replicate 21 0 ++ ([0xC2, 0x33, 0x9F, 0x3D] ++ (List.replicate 1024 0 ++ ([0x00, 0x00, 0x24, 0x60] ++ ([0x00, 0x00, 0x25, 0x60] ++ ([0x00, 0x00, 0x00, 0x0C] ++ (List.replicate 8500 0 ++ ([0x01, 0x00, 0x00, 0x00] ++ ([0x00, 0x00, 0x00, 0x00] ++ ([0x00, 0x00, 0x00, 0x01]))))))))) :=
  drop_zeros_peel c7data _ 1 27 6 c7d1 (by norm_num)

theorem c7z8 : List.drop 8 c7data = List.replicate 20 0 ++ ([0xC2, 0x33, 0x9F, 0x3D] ++ (List.replicate 1024 0 ++ ([0x00, 0x00, 0x24, 0x60] ++ ([0x00, 0x00, 0x25, 0x60] ++ ([0x00, 0x00, 0x00, 0x0C] ++ (List.replicate 8500 0 ++ ([0x01, 0x00, 0x00, 0x00] ++ ([0x00, 0x00, 0x00, 0x00] ++ ([0x00, 0x00, 0x00, 0x01]))))))))) :=
  drop_zeros_peel c7data _ 1 27 7 c7d1 (by norm_num)

theorem c7z9 : List.drop 9 c7data = List.replicate 19 0 ++ ([0xC2, 0x33, 0x9F, 0x3D] ++ (List.replicate 1024 0 ++ ([0x00, 0x00, 0x24, 0x60] ++ ([0x00, 0x00, 0x25, 0x60] ++ ([0x00, 0x00, 0x00, 0x0C] ++ (List.replicate 8500 0 ++ ([0x01, 0x00, 0x00, 0x00] ++ ([0x00, 0x00, 0x00, 0x00] ++ ([0x00, 0x00, 0x00, 0x01]))))))))) :=
  drop_zeros_peel c7data _ 1 27 8 c7d1 (by norm_num)

theorem c7z10 : List.drop 10 c7data = List.replicate 18 0 ++ ([0xC2, 0x33, 0x9F, 0x3D] ++ (List.replicate 1024 0 ++ ([0x00, 0x00, 0x24, 0x60] ++ ([0x00, 0x00, 0x25, 0x60] ++ ([0x00, 0x00, 0x00, 0x0C] ++ (List.replicate 8500 0 ++ ([0x01, 0x00, 0x00, 0x00] ++ ([0x00, 0x00, 0x00, 0x00] ++ ([0x00, 0x00, 0x00, 0x01]))))))))) :=
  drop_zeros_peel c7data _ 1 27 9 c7d1 (by norm_num)

theorem c7z1024 : List.drop 1024 c7data = List.replicate 32 0 ++ ([0x00, 0x00, 0x24, 0x60] ++ ([0x00, 0x00, 0x25, 0x60] ++ ([0x00, 0x00, 0x00, 0x0C] ++ (List.replicate 8500 0 ++ ([0x01, 0x00, 0x00, 0x00] ++ ([0x00, 0x00, 0x00, 0x00] ++ ([0x00, 0x00, 0x00, 0x01]))))))) :=
  drop_zeros_peel c7data _ 32 1024 992 c7d32 (by norm_num)

theorem c7z1028 : List.drop 1028 c7data = List.replicate 28 0 ++ ([0x00, 0x00, 0x24, 0x60] ++ ([0x00, 0x00, 0x25, 0x60] ++ ([0x00, 0x00, 0x00, 0x0C] ++ (List.replicate 8500 0 ++ ([0x01, 0x00, 0x00, 0x00] ++ ([0x00, 0x00, 0x00, 0x00] ++ ([0x00, 0x00, 0x00, 0x01]))))))) :=
  drop_zeros_peel c7data _ 32 1024 996 c7d32 (by norm_num)

theorem c7z1032 : List.drop 1032 c7data = List.replicate 24 0 ++ ([0x00, 0x00, 0x24, 0x60] ++ ([0x00, 0x00, 0x25, 0x60] ++ ([0x00, 0x00, 0x00, 0x0C] ++ (List.replicate 8500 0 ++ ([0x01, 0x00, 0x00, 0x00] ++ ([0x00, 0x00, 0x00, 0x00] ++ ([0x00, 0x00, 0x00, 0x01]))))))) :=
  drop_zeros_peel c7data _ 32 1024 1000 c7d32 (by norm_num)

theorem c7z1072 : List.drop 1072 c7data = List.replicate 8496 0 ++ ([0x01, 0x00, 0x00, 0x00] ++ ([0x00, 0x00, 0x00, 0x00] ++ ([0x00, 0x00, 0x00, 0x01]))) :=
  drop_zeros_peel c7data _ 1068 8500 4 c7d1068 (by norm_num)

theorem c7z1076 : List.drop 1076 c7data = List.replicate 8492 0 ++ ([0x01, 0x00, 0x00, 0x00] ++ ([0x00, 0x00, 0x00, 0x00] ++ ([0x00, 0x00, 0x00, 0x01]))) :=
  drop_zeros_peel c7data _ 1068 8500 8 c7d1068 (by norm_num)

theorem c7z1080 : List.drop 1080 c7data = List.replicate 8488 0 ++ ([0x01, 0x00, 0x00, 0x00] ++ ([0x00, 0x00, 0x00, 0x00] ++ ([0x00, 0x00, 0x00, 0x01]))) :=
  drop_zeros_peel c7data _ 1068 8500 12 c7d1068 (by norm_num)

theorem c7z1084 : List.drop 1084 c7data = List.replicate 8484 0 ++ ([0x01, 0x00, 0x00, 0x00] ++ ([0x00, 0x00, 0x00, 0x00] ++ ([0x00, 0x00, 0x00, 0x01]))) :=
  drop_zeros_peel c7data _ 1068 8500 16 c7d1068 (by norm_num)

theorem c7z1088 : List.drop 1088 c7data = List.replicate 8480 0 ++ ([0x01, 0x00, 0x00, 0x00] ++ ([0x00, 0x00, 0x00, 0x00] ++ ([0x00, 0x00, 0x00, 0x01]))) :=
  drop_zeros_peel c7data _ 1068 8500 20 c7d1068 (by norm_num)

theorem c7z9280 : List.drop 9280 c7data = List.replicate 288 0 ++ ([0x01, 0x00, 0x00, 0x00] ++ ([0x00, 0x00, 0x00, 0x00] ++ ([0x00, 0x00, 0x00, 0x01]))) :=
  drop_zeros_peel c7data _ 1068 8500 8212 c7d1068 (by norm_num)

theorem c7z9312 : List.drop 9312 c7data = List.replicate 256 0 ++ ([0x01, 0x00, 0x00, 0x00] ++ ([0x00, 0x00, 0x00, 0x00] ++ ([0x00, 0x00, 0x00, 0x01]))) :=
  drop_zeros_peel c7data _ 1068 8500 8244 c7d1068 (by norm_num)

theorem c7r0 : ByteStream.u8 ⟨c7data, 0⟩ = .ok (0x47, ⟨c7data, 1⟩) :=
  u8_eval c7data 0 0x47 _ (by rw [c7d0]; rfl) (by rw [c7len]; norm_num)

theorem c7r1 : ByteStream.u8Array ⟨c7data, 1⟩ 2 = .ok (List.replicate 2 0, ⟨c7data, 3⟩) :=
  u8Array_eval c7data (List.replicate 2 0) _ 1 2
    (drop_zeros_view c7data _ 1 27 2 c7d1 (by norm_num))
    (by rw [List.length_replicate]) (by rw [c7len]; norm_num)

theorem c7r3 : ByteStream.u8 ⟨c7data, 3⟩ = .ok (0, ⟨c7data, 4⟩) :=
  u8_eval c7data 3 0 _ (drop_zeros_cons c7data _ 3 25 c7z3 (by norm_num))
    (by rw [c7len]; norm_num)

theorem c7r6 : ByteStream.u8 ⟨c7data, 6⟩ = .ok (0, ⟨c7data, 7⟩) :=
  u8_eval c7data 6 0 _ (drop_zeros_cons c7data _ 6 22 c7z6 (by norm_num))
    (by rw [c7len]; norm_num)

theorem c7r7 : ByteStream.u8 ⟨c7data, 7⟩ = .ok (0, ⟨c7data, 8⟩) :=
  u8_eval c7data 7 0 _ (drop_zeros_cons c7data _ 7 21 c7z7 (by norm_num))
    (by rw [c7len]; norm_num)

theorem c7r8 : ByteStream.u8 ⟨c7data, 8⟩ = .ok (0, ⟨c7data, 9⟩) :=
  u8_eval c7data 8 0 _ (drop_zeros_cons c7data _ 8 20 c7z8 (by norm_num))
    (by rw [c7len]; norm_num)

theorem c7r9 : ByteStream.u8 ⟨c7data, 9⟩ = .ok (0, ⟨c7data, 10⟩) :=
  u8_eval c7data 9 0 _ (drop_zeros_cons c7data _ 9 19 c7z9 (by norm_num))
    (by rw [c7len]; norm_num)

theorem c7r4 : ByteStream.u8Array ⟨c7data, 4⟩ 2 = .ok (List.replicate 2 0, ⟨c7data, 6⟩) :=
  u8Array_eval c7data (List.replicate 2 0) _ 4 2
    (drop_zeros_view c7data _ 4 24 2 c7z4 (by norm_num))
    (by rw [List.length_replicate]) (by rw [c7len]; norm_num)

theorem c7r10 : ByteStream.u8Array ⟨c7data, 10⟩ 18 = .ok (List.replicate 18 0, ⟨c7data, 28⟩) :=
  u8Array_eval c7data (List.replicate 18 0) _ 10 18
    (drop_zeros_view c7data _ 10 18 18 c7z10 (by norm_num))
    (by rw [List.length_replicate]) (by rw [c7len]; norm_num)

theorem c7r28 : ByteStream.bu32 ⟨c7data, 28⟩ = .ok (0xC2339F3D, ⟨c7data, 32⟩) :=
  bu32_eval c7data 28 0xC2 0x33 0x9F 0x3D _ (by rw [c7d28]; rfl)
    (by rw [c7len]; norm_num)

theorem c7r32 : ByteStream.strFixedAscii ⟨c7data, 32⟩ 0x3E0 = .ok ("", ⟨c7data, 1024⟩) :=
  strFixedAscii_zeros_eval c7data 32 0x3E0 _
    (drop_zeros_view c7data _ 32 1024 992 c7d32 (by norm_num))
    (by rw [c7len]; norm_num)

theorem c7r1024 : ByteStream.bu32 ⟨c7data, 1024⟩ = .ok (0, ⟨c7data, 1028⟩) :=
  bu32_zeros_eval c7data 1024 _ (drop_zeros_cons4 c7data _ 1024 32 c7z1024 (by norm_num))
    (by rw [c7len]; norm_num)

theorem c7r1028 : ByteStream.bu32 ⟨c7data, 1028⟩ = .ok (0, ⟨c7data, 1032⟩) :=
  bu32_zeros_eval c7data 1028 _ (drop_zeros_cons4 c7data _ 1028 28 c7z1028 (by norm_num))
    (by rw [c7len]; norm_num)

theorem c7r1068 : ByteStream.bu32 ⟨c7data, 1068⟩ = .ok (0, ⟨c7data, 1072⟩) :=
  bu32_zeros_eval c7data 1068 _ (drop_zeros_cons4 c7data _ 1068 8500 c7d1068 (by norm_num))
    (by rw [c7len]; norm_num)

theorem c7r1072 : ByteStream.bu32 ⟨c7data, 1072⟩ = .ok (0, ⟨c7data, 1076⟩) :=
  bu32_zeros_eval c7data 1072 _ (drop_zeros_cons4 c7data _ 1072 8496 c7z1072 (by norm_num))
    (by rw [c7len]; norm_num)

theorem c7r1076 : ByteStream.bu32 ⟨c7data, 1076⟩ = .ok (0, ⟨c7data, 1080⟩) :=
  bu32_zeros_eval c7data 1076 _ (drop_zeros_cons4 c7data _ 1076 8492 c7z1076 (by norm_num))
    (by rw [c7len]; norm_num)

theorem c7r1080 : ByteStream.bu32 ⟨c7data, 1080⟩ = .ok (0, ⟨c7data, 1084⟩) :=
  bu32_zeros_eval c7data 1080 _ (drop_zeros_cons4 c7data _ 1080 8488 c7z1080 (by norm_num))
    (by rw [c7len]; norm_num)

theorem c7r1032 : ByteStream.u8Array ⟨c7data, 1032⟩ 0x18 = .ok (List.replicate 24 0, ⟨c7data, 1056⟩) :=
  u8Array_eval c7data (List.replicate 24 0) _ 1032 24
    (drop_zeros_view c7data _ 1032 24 24 c7z1032 (by norm_num))
    (by rw [List.length_replicate]) (by rw [c7len]; norm_num)

theorem c7r1056 : ByteStream.bu32 ⟨c7data, 1056⟩ = .ok (0x2460, ⟨c7data, 1060⟩) :=
  bu32_eval c7data 1056 0x00 0x00 0x24 0x60 _ (by rw [c7d1056]; rfl)
    (by rw [c7len]; norm_num)

theorem c7r1060 : ByteStream.bu32 ⟨c7data, 1060⟩ = .ok (0x2560, ⟨c7data, 1064⟩) :=
  bu32_eval c7data 1060 0x00 0x00 0x25 0x60 _ (by rw [c7d1060]; rfl)
    (by rw [c7len]; norm_num)

theorem c7r1064 : ByteStream.bu32 ⟨c7data, 1064⟩ = .ok (12, ⟨c7data, 1068⟩) :=
  bu32_eval c7data 1064 0x00 0x00 0x00 0x0C _ (by rw [c7d1064]; rfl)
    (by rw [c7len]; norm_num)

theorem c7r1084 : ByteStream.u8Array ⟨c7data, 1084⟩ 0x4 = .ok (List.replicate 4 0, ⟨c7data, 1088⟩) :=
  u8Array_eval c7data (List.replicate 4 0) _ 1084 4
    (drop_zeros_view c7data _ 1084 8484 4 c7z1084 (by norm_num))
    (by rw [List.length_replicate]) (by rw [c7len]; norm_num)

theorem c7r1088 : bi2FromBinary ⟨c7data, 1088⟩ = .ok (⟨[]⟩, ⟨c7data, 9280⟩) :=
  bi2_zeros_eval c7data 1088 _
    (drop_zeros_view c7data _ 1088 8480 8192 c7z1088 (by norm_num))
    (by rw [c7len]; norm_num)

theorem c7r9280 : apploaderFromBinary ⟨c7data, 9280⟩ = .ok (⟨"", 0, 0, 0, 0, []⟩, ⟨c7data, 9312⟩) :=
  apploader_zeros_eval c7data 9280 _
    (drop_zeros_view c7data _ 9280 288 32 c7z9280 (by norm_num))
    (by rw [c7len]; norm_num)

theorem c7r9312 : executableFromBinary ⟨c7data, 9312⟩ = .ok (⟨[]⟩, ⟨c7data, 9312⟩) :=
  executable_zeros_eval c7data 9312 _
    (drop_zeros_view c7data _ 9312 256 216 c7z9312 (by norm_num))
    (by rw [c7len]; norm_num)

theorem c7r9568 : ByteStream.bu32 ⟨c7data, 9568⟩ = .ok (16777216, ⟨c7data, 9572⟩) :=
  bu32_eval c7data 9568 0x01 0x00 0x00 0x00 _ (by rw [c7d9568]; rfl)
    (by rw [c7len]; norm_num)

theorem c7r9572 : ByteStream.bu32 ⟨c7data, 9572⟩ = .ok (0, ⟨c7data, 9576⟩) :=
  bu32_eval c7data 9572 0x00 0x00 0x00 0x00 _ (by rw [c7d9572]; rfl)
    (by rw [c7len]; norm_num)

theorem c7r9576 : ByteStream.bu32 ⟨c7data, 9576⟩ = .ok (1, ⟨c7data, 9580⟩) :=
  bu32_eval c7data 9576 0x00 0x00 0x00 0x01 _ (by rw [c7d9576])
    (by rw [c7len])

theorem c7_boot : bootFromBinary ⟨c7data, 0⟩ = .ok (c7boot, ⟨c7data, 1088⟩) := by
  rw [bootFromBinary, c7r0, c6_bind_ok]
  dsimp only
  rw [c7r1, c6_bind_ok]
  dsimp only
  rw [c7r3, c6_bind_ok]
  dsimp only
  rw [c7r4, c6_bind_ok]
  dsimp only
  rw [c7r6, c6_bind_ok]
  dsimp only
  rw [c7r7, c6_bind_ok]
  dsimp only
  rw [c7r8, c6_bind_ok]
  dsimp only
  rw [c7r9, c6_bind_ok]
  dsimp only
  rw [c7r10, c6_bind_ok]
  dsimp only
  rw [c7r28, c6_bind_ok]
  dsimp only
  rw [c7r32, c6_bind_ok]
  dsimp only
  rw [c7r1024, c6_bind_ok]
  dsimp only
  rw [c7r1028, c6_bind_ok]
  dsimp only
  rw [c7r1032, c6_bind_ok]
  dsimp only
  rw [c7r1056, c6_bind_ok]
  dsimp only
  rw [c7r1060, c6_bind_ok]
  dsimp only
  rw [c7r1064, c6_bind_ok]
  dsimp only
  rw [c7r1068, c6_bind_ok]
  dsimp only
  rw [c7r1072, c6_bind_ok]
  dsimp only
  rw [c7r1076, c6_bind_ok]
  dsimp only
  rw [c7r1080, c6_bind_ok]
  dsimp only
  rw [c7r1084, c6_bind_ok]
  dsimp only
  rw [if_neg (show ¬((0xC2339F3D : Nat) ≠ 0xC2339F3D) by norm_num),
    if_neg (show ¬((0x47 : Nat) ≠ 0x47) by norm_num)]
  rfl

theorem c7_rawEntry : rawEntryNew ⟨c7data, 9568⟩ =
    .ok (.directory 0 0 1, ⟨c7data, 9580⟩) := by
  rw [rawEntryNew, c7r9568, c6_bind_ok]
  dsimp only
  rw [c7r9572, c6_bind_ok]
  dsimp only
  rw [c7r9576, c6_bind_ok]
  dsimp only
  rw [if_neg (show ¬(16777216 / 0x1000000 % 2 = 0) by norm_num)]

theorem c7_rawEntries : rawEntriesRead 1 ⟨c7data, 9568⟩ =
    .ok ([.directory 0 0 1], ⟨c7data, 9580⟩) := by
  have h1 : rawEntriesRead 1 ⟨c7data, 9568⟩ =
      Bind.bind (rawEntryNew ⟨c7data, 9568⟩) (fun x =>
        match x with
        | (e, s) => Bind.bind (rawEntriesRead 0 s) (fun y =>
            match y with
            | (rest, s) => Except.ok (e :: rest, s))) := rfl
  rw [h1, c7_rawEntry, c6_bind_ok]
  dsimp only
  rw [show rawEntriesRead 0 ⟨c7data, 9580⟩ = .ok ([], ⟨c7data, 9580⟩) from rfl,
    c6_bind_ok]

theorem c7_fst : fstDeserialize ⟨c7data, 9568⟩ 12 =
    .ok (⟨[.root]⟩, ⟨c7data, 9580⟩) := by
  rw [fstDeserialize]
  dsimp only
  rw [c7r9568, c6_bind_ok]
  dsimp only
  rw [c7r9572, c6_bind_ok]
  dsimp only
  rw [c7r9576, c6_bind_ok]
  dsimp only
  rw [if_neg (show ¬((0x4000 : Nat) < 1) by norm_num)]
  dsimp only [ByteStream.goto]
  rw [c7_rawEntries]
  dsimp only
  rw [show ((12 : Nat) + 18446744073709551616 - 12 * 1) % 18446744073709551616 = 0
    by norm_num]
  rw [readAsVec_zero_eval c7data 9580 (by rw [c7len])]
  dsimp only
  rw [show fstBuildEntries [] [RawEntry.directory 0 0 1] 0 = .ok [FstEntry.root]
    from rfl]

theorem c7_run : gcmFromBinary c7s = .ok (c7gcm, ⟨c7data, 9580⟩) := by
  rw [gcmFromBinary]
  dsimp only [c7s]
  rw [c7_boot]
  dsimp only
  rw [if_neg (show ¬((0 : Nat) + 0x440 ≠ 1088) by norm_num)]
  rw [c7r1088]
  dsimp only
  rw [if_neg (show ¬((0 : Nat) + 0x2440 ≠ 9280) by norm_num)]
  rw [c7r9280]
  dsimp only [List.length_nil]
  rw [if_neg (show ¬((0 : Nat) + 0x2460 + 0 ≠ 9312) by norm_num)]
  dsimp only [c7boot, ByteStream.goto]
  rw [show ((0 : Nat) + 0x2460) = 9312 from rfl]
  rw [c7r9312]
  dsimp only
  rw [show ((0 : Nat) + 0x2560) = 9568 from rfl]
  rw [c7_fst]
  rfl

/-- C7: on the concrete GCM `c7data` (apploader size and trailer size both 0,
FST of one root entry at 0x2560), `Gcm::from_binary` succeeds but returns with
the stream at 0x256C — just past the FST — while
`0x2460 + apploader.size + apploader.trailer_size = 0x2460`: the claimed
final-position equation fails on a successful parse. -/
theorem c7_counterexample :
    gcmFromBinary c7s = .ok (c7gcm, ⟨c7data, 9580⟩) ∧
    c7gcm.apploader.size = 0 ∧
    c7gcm.apploader.trailerSize = 0 ∧
    (⟨c7data, 9580⟩ : ByteStream).pos - c7s.pos ≠
      0x2460 + c7gcm.apploader.size + c7gcm.apploader.trailerSize :=
  ⟨c7_run, rfl, rfl, by norm_num [c7s, c7gcm, c7app]⟩

theorem c7_witness :
    ∃ sB sC sA,
      bootFromBinary c7s = .ok (c7gcm.boot, sB) ∧ sB.pos = c7s.pos + 0x440 ∧
      bi2FromBinary sB = .ok (c7gcm.bi2, sC) ∧ sC.pos = c7s.pos + 0x2440 ∧
      apploaderFromBinary sC = .ok (c7gcm.apploader, sA) ∧
      sA.pos = c7s.pos + 0x2460 + c7gcm.apploader.data.length ∧
      c7gcm.apploader.data.length =
        (c7gcm.apploader.size + c7gcm.apploader.trailerSize) % 4294967296 :=
  c7_position_invariant c7s c7gcm ⟨c7data, 9580⟩ c7_run
